import Mathlib

/-!
# Verification of the `useAsyncData` hook (src/index.ts)

Shallow embedding of the data-fetching core of `use-async-data`:
the shared cache `asyncDataCache`, the subscriber registry `subscribers`,
the per-instance hook state (`data` / `isLoading` / `error`, the
`latestRequestId` ref and the `cacheEntryStatus` ref), and the operations
`fetchData`, `initializeFetch`, `refetch`, the effect cleanup,
`notifySubscribers`, `subscribe` and `unsubscribe`.

The embedding follows the single-threaded cooperative execution model of
JavaScript: every synchronous run (a mount, a refetch call, an unmount
cleanup, or the resumption after an `await` when a promise settles) is one
atomic step on a global system state.  Promises are identified by numeric
ids; awaiting registers a continuation, and a `settle` event delivers the
outcome to every continuation registered on that promise.  Each hook
instance is modelled with a single effect run (mount ... unmount); `refetch`
is modelled while the instance is live.
-/

/-- A JavaScript value, as far as the error-normalisation logic observes it:
either `null`, a plain (non-`Error`) value rendered by its string conversion,
or an `Error` object carrying a `message`. -/
inductive JVal where
  | jnull : JVal
  | jstr : String → JVal
  | jerror : String → JVal
deriving DecidableEq, Repr

/-- JavaScript `String(v)` conversion for the modelled values
(`String(new Error(m))` prints `"Error: " ++ m`). -/
def jsString : JVal → String
  | .jnull => "null"
  | .jstr s => s
  | .jerror m => "Error: " ++ m

/-- Line 150 of src/index.ts:
`err instanceof Error ? err : new Error(String(err))`. -/
def toError : JVal → JVal
  | .jerror m => .jerror m
  | .jnull => .jerror (jsString .jnull)
  | .jstr s => .jerror (jsString (.jstr s))

/-- `CacheEntry.status` (line 16): `'idle' | 'pending' | 'resolved' | 'rejected'`. -/
inductive Status where
  | idle : Status
  | pending : Status
  | resolved : Status
  | rejected : Status
deriving DecidableEq, Repr

/-- `CacheEntry<T>` (lines 14-19).  The `promise` field holds the id of the
in-flight promise (promises are compared by identity only, matching `===`). -/
structure CacheEntry where
  promise : Option Nat
  status : Status
  data : Option JVal
  error : Option JVal
deriving DecidableEq, Repr

/-- The initial `cacheEntryStatus.current` value (lines 85-90) and the entry
`refetch` resets the ref to (lines 266-271). -/
def idleEntry : CacheEntry := ⟨none, .idle, none, none⟩

/-- The entry published while a request is in flight (lines 119-124). -/
def pendingEntry (p : Nat) : CacheEntry := ⟨some p, .pending, none, none⟩

/-- The entry published on success (lines 136-141): note the promise is kept. -/
def resolvedEntry (p : Nat) (v : JVal) : CacheEntry := ⟨some p, .resolved, some v, none⟩

/-- The entry published on failure (lines 154-159): the promise is cleared. -/
def rejectedEntry (e : JVal) : CacheEntry := ⟨none, .rejected, none, some e⟩

/-- Association-list model of a JavaScript `Map`: lookup (`Map.get`). -/
def alookup {κ α : Type} [DecidableEq κ] : List (κ × α) → κ → Option α
  | [], _ => none
  | (k1, v1) :: m, k => if k1 = k then some v1 else alookup m k

/-- Association-list model of a JavaScript `Map`: wholesale replace (`Map.set`). -/
def aset {κ α : Type} [DecidableEq κ] : List (κ × α) → κ → α → List (κ × α)
  | [], k, v => [(k, v)]
  | (k1, v1) :: m, k, v => if k1 = k then (k, v) :: m else (k1, v1) :: aset m k v

/-- Association-list model of a JavaScript `Map`: removal (`Map.delete`). -/
def adel {κ α : Type} [DecidableEq κ] : List (κ × α) → κ → List (κ × α)
  | [], _ => []
  | (k1, v1) :: m, k => if k1 = k then adel m k else (k1, v1) :: adel m k

/-- The per-instance hook state: the three exposed `useState` cells
(lines 76-78), the `latestRequestId` ref (line 81), the `cacheEntryStatus`
ref (lines 85-90), the captured `cacheKey`, and the effect-local
`cleanupCalled` flag (line 175).

Two specification-only ghost fields (never read by any operation):
`lastStartEpoch` records the request id captured at the most recent fetch
start (line 179 / line 261), and `ghostWrote` records whether any settlement
was applied to, or any cached value adopted into, the exposed state. -/
structure Instance where
  key : Option String
  data : Option JVal
  isLoading : Bool
  error : Option JVal
  latestRequestId : Nat
  ref : CacheEntry
  cleanupCalled : Bool
  lastStartEpoch : Nat
  ghostWrote : Bool
deriving DecidableEq, Repr

/-- The fresh hook state created at first render (lines 76-90). -/
def initialInstance (key : Option String) : Instance :=
  { key := key, data := none, isLoading := true, error := none,
    latestRequestId := 0, ref := idleEntry, cleanupCalled := false,
    lastStartEpoch := 0, ghostWrote := false }

/-- Which suspended computation a continuation resumes: the remainder of
`fetchData` after `await requestPromise` (line 129), or the remainder of
`initializeFetch` after `await cached.promise` (line 195). -/
inductive ContKind where
  | fetchCont : ContKind
  | attachCont : ContKind
deriving DecidableEq, Repr

/-- A suspended continuation: which promise it awaits, which instance it
belongs to, the `cacheKey` captured by the closure, the request id captured
as `currentRequestId`, and which resumption code runs. -/
structure Await where
  promise : Nat
  inst : Nat
  key : Option String
  reqId : Nat
  kind : ContKind
deriving DecidableEq, Repr

/-- Settlement of a promise: `resolve v` or `reject e`. -/
inductive Outcome where
  | resolve : JVal → Outcome
  | reject : JVal → Outcome
deriving DecidableEq, Repr

/-- The whole system: the module-level `asyncDataCache` and `subscribers`
maps (lines 22-23), all hook instances, the pending continuations, a
fresh-promise counter, and an invocation counter for the producer function
(the analog of the jest mock call count in src/index.test.ts). -/
structure Sys where
  cache : List (String × CacheEntry)
  subs : List (String × List Nat)
  insts : List (Nat × Instance)
  conts : List Await
  nextPromise : Nat
  producerCalls : Nat
deriving DecidableEq, Repr

/-- Both module-level maps start empty (lines 22-23). -/
def initSys : Sys := ⟨[], [], [], [], 0, 0⟩

def getInst (s : Sys) (i : Nat) : Option Instance := alookup s.insts i

def putInst (s : Sys) (i : Nat) (inst : Instance) : Sys :=
  { s with insts := aset s.insts i inst }

/-- `subscribe` (lines 31-36): create the set if absent, then `Set.add`
(a no-op when the callback is already a member, appending otherwise). -/
def subscribeCb (k : String) (i : Nat) (s : Sys) : Sys :=
  match alookup s.subs k with
  | none => { s with subs := aset s.subs k [i] }
  | some ids => if i ∈ ids then s else { s with subs := aset s.subs k (ids ++ [i]) }

/-- `unsubscribe` (lines 38-45): `Set.delete`, then drop the whole set when
it became empty. -/
def unsubscribeCb (k : String) (i : Nat) (s : Sys) : Sys :=
  match alookup s.subs k with
  | none => s
  | some ids =>
    let ids2 := ids.filter (fun j => ¬ j = i)
    if ids2 = [] then { s with subs := adel s.subs k }
    else { s with subs := aset s.subs k ids2 }

/-- `handleCacheUpdate` (lines 225-240): the `onStoreChange` callback the
instance subscribed under key `k`.  Guarded only by the effect-local
`cleanupCalled` flag; mirrors a Resolved or Rejected snapshot of the store
into the instance's exposed state. -/
def handleCacheUpdate (k : String) (i : Nat) (s : Sys) : Sys :=
  match getInst s i with
  | none => s
  | some inst =>
    if inst.cleanupCalled then s
    else
      match alookup s.cache k with
      | none => s
      | some cached =>
        if cached.status = .resolved then
          putInst s i { inst with data := cached.data, isLoading := false,
                                  error := none, ghostWrote := true }
        else if cached.status = .rejected then
          putInst s i { inst with error := cached.error, data := none,
                                  isLoading := false, ghostWrote := true }
        else s

/-- `notifySubscribers` (lines 25-29): run every callback registered for the
key, in set-insertion order.  (The registered callbacks are the
`handleCacheUpdate` closures, which never throw; the behaviour of
`Set.forEach` under arbitrary, possibly-throwing callbacks is modelled
separately by `setForEach` below.) -/
def notifySubscribers (k : String) (s : Sys) : Sys :=
  match alookup s.subs k with
  | none => s
  | some ids => ids.foldl (fun acc i => handleCacheUpdate k i acc) s

/-- The producer invocation inside `fetchData`s `try` block (lines 114-129):
`asyncFunc()` creates a fresh promise and bumps the invocation counter;
when keyed, a pending entry is published to the cache and to the
`cacheEntryStatus` ref (lines 117-127); finally `await requestPromise`
suspends, registering a `fetchCont` continuation. -/
def fetchInvoke (i : Nat) (key : Option String) (r : Nat) (s : Sys) : Sys :=
  match getInst s i with
  | none => s
  | some inst =>
    let p := s.nextPromise
    let s1 := { s with nextPromise := p + 1, producerCalls := s.producerCalls + 1 }
    let s2 :=
      match key with
      | some k =>
        let s3 := { s1 with cache := aset s1.cache k (pendingEntry p) }
        putInst s3 i { inst with ref := pendingEntry p }
      | none => s1
    { s2 with conts := s2.conts ++ [⟨p, i, key, r, .fetchCont⟩] }

/-- The synchronous prefix of `fetchData(currentRequestId)` (lines 93-129):
`setIsLoading(true); setError(null)`, then the keyed de-duplication /
cached-value checks (lines 98-112), then the producer invocation. -/
def fetchDataStep (i : Nat) (r : Nat) (s : Sys) : Sys :=
  match getInst s i with
  | none => s
  | some inst0 =>
    let inst1 := { inst0 with isLoading := true, error := none }
    let s1 := putInst s i inst1
    match inst1.key with
    | some k =>
      match alookup s1.cache k with
      | some cached =>
        if cached.status = .pending ∧ inst1.ref.promise = cached.promise then
          s1
        else if cached.status = .resolved then
          putInst s1 i { inst1 with data := cached.data, isLoading := false,
                                    error := none, ghostWrote := true }
        else
          fetchInvoke i (some k) r s1
      | none => fetchInvoke i (some k) r s1
    | none => fetchInvoke i none r s1

/-- Mount of a hook instance under a fresh id: the first render
(lines 76-90) followed by the synchronous part of the effect
(lines 174-244): `const currentRequestId = ++latestRequestId.current`,
the branch of `initializeFetch` up to its first suspension, then
`subscribe(cacheKey, handleCacheUpdate)`.  A no-op when the id is in use. -/
def mountStep (i : Nat) (key : Option String) (s : Sys) : Sys :=
  match getInst s i with
  | some _ => s
  | none =>
    let inst1 := { initialInstance key with latestRequestId := 1, lastStartEpoch := 1 }
    let s1 := { s with insts := aset s.insts i inst1 }
    let s2 :=
      match key with
      | some k =>
        match alookup s1.cache k with
        | some cached =>
          if cached.status = .resolved then
            putInst s1 i { inst1 with data := cached.data, isLoading := false,
                                      error := none, ghostWrote := true }
          else if cached.status = .pending ∧ inst1.ref.promise = cached.promise then
            match cached.promise with
            | some p =>
              let s3 := putInst s1 i { inst1 with isLoading := true }
              { s3 with conts := s3.conts ++ [⟨p, i, key, 1, .attachCont⟩] }
            | none => s1
          else fetchDataStep i 1 s1
        | none => fetchDataStep i 1 s1
      | none => fetchDataStep i 1 s1
    match key with
    | some k => subscribeCb k i s2
    | none => s2

/-- The effect cleanup (lines 246-256): set `cleanupCalled`, increment
`latestRequestId` to invalidate in-flight requests, and unsubscribe.
Runs once per instance. -/
def unmountStep (i : Nat) (s : Sys) : Sys :=
  match getInst s i with
  | none => s
  | some inst =>
    if inst.cleanupCalled then s
    else
      let s1 := putInst s i { inst with cleanupCalled := true,
                                        latestRequestId := inst.latestRequestId + 1 }
      match inst.key with
      | some k => unsubscribeCb k i s1
      | none => s1

/-- `refetch` (lines 260-274): capture `++latestRequestId.current`, when
keyed delete the cache entry and reset the ref to idle, then run
`fetchData(currentRequestId)`.  Modelled for live instances (the hook
consumer is gone after teardown). -/
def refetchStep (i : Nat) (s : Sys) : Sys :=
  match getInst s i with
  | none => s
  | some inst =>
    if inst.cleanupCalled then s
    else
      let r := inst.latestRequestId + 1
      let inst1 := { inst with latestRequestId := r, lastStartEpoch := r }
      let s1 := putInst s i inst1
      let s2 :=
        match inst.key with
        | some k =>
          let s3 := { s1 with cache := adel s1.cache k }
          putInst s3 i { inst1 with ref := idleEntry }
        | none => s1
      fetchDataStep i r s2

/-- Publication of a settled entry under key `k` (lines 135-144 and
153-162): `asyncDataCache.set(cacheKey, entry)`, then
`cacheEntryStatus.current = entry`, then `notifySubscribers(cacheKey)`. -/
def publishSettle (i : Nat) (k : String) (entry : CacheEntry) (s : Sys) : Sys :=
  let s1 := { s with cache := aset s.cache k entry }
  let s2 :=
    match getInst s1 i with
    | some inst2 => putInst s1 i { inst2 with ref := entry }
    | none => s1
  notifySubscribers k s2

/-- The `try` tail / `catch` of `fetchData` after `await requestPromise`
(lines 131-164): race-gated state write; on reject the failure value is
normalised with `toError`; when keyed, the settled entry is published. -/
def fetchSettleBody (c : Await) (out : Outcome) (s : Sys) : Sys :=
  match getInst s c.inst with
  | none => s
  | some inst =>
    match out with
    | .resolve v =>
      if c.reqId = inst.latestRequestId then
        let s2 := putInst s c.inst { inst with data := some v, error := none,
                                               ghostWrote := true }
        match c.key with
        | some k => publishSettle c.inst k (resolvedEntry c.promise v) s2
        | none => s2
      else s
    | .reject e =>
      if c.reqId = inst.latestRequestId then
        let s2 := putInst s c.inst { inst with error := some (toError e), data := none,
                                               ghostWrote := true }
        match c.key with
        | some k => publishSettle c.inst k (rejectedEntry (toError e)) s2
        | none => s2
      else s

/-- The `finally` of `fetchData` (lines 165-170): race-gated
`setIsLoading(false)`. -/
def fetchFinally (c : Await) (s : Sys) : Sys :=
  match getInst s c.inst with
  | none => s
  | some instf =>
    if c.reqId = instf.latestRequestId then
      putInst s c.inst { instf with isLoading := false }
    else s

/-- Resumption of `fetchData` after `await requestPromise` (lines 129-170).
The rejection is consumed by the `catch` and never re-thrown. -/
def fetchResume (c : Await) (out : Outcome) (s : Sys) : Sys :=
  fetchFinally c (fetchSettleBody c out s)

/-- The `try` tail / `catch` of `initializeFetch` after
`await cached.promise` (lines 194-205): gated by both `!cleanupCalled` and
the request-id check; writes only the exposed state (no cache publish, no
notification). -/
def attachSettleBody (c : Await) (out : Outcome) (s : Sys) : Sys :=
  match getInst s c.inst with
  | none => s
  | some inst =>
    match out with
    | .resolve v =>
      if inst.cleanupCalled = false ∧ c.reqId = inst.latestRequestId then
        putInst s c.inst { inst with data := some v, error := none, ghostWrote := true }
      else s
    | .reject e =>
      if inst.cleanupCalled = false ∧ c.reqId = inst.latestRequestId then
        putInst s c.inst { inst with error := some (toError e), data := none,
                                     ghostWrote := true }
      else s

/-- The `finally` of the attach branch (lines 206-209). -/
def attachFinally (c : Await) (s : Sys) : Sys :=
  match getInst s c.inst with
  | none => s
  | some instf =>
    if instf.cleanupCalled = false ∧ c.reqId = instf.latestRequestId then
      putInst s c.inst { instf with isLoading := false }
    else s

/-- Resumption of `initializeFetch` after `await cached.promise`
(lines 194-210). -/
def attachResume (c : Await) (out : Outcome) (s : Sys) : Sys :=
  attachFinally c (attachSettleBody c out s)

/-- Run one suspended continuation with the promise's outcome. -/
def runCont (c : Await) (out : Outcome) (s : Sys) : Sys :=
  match c.kind with
  | .fetchCont => fetchResume c out s
  | .attachCont => attachResume c out s

/-- Settlement of promise `p`: every continuation awaiting `p` resumes, in
registration order; the continuations are consumed. -/
def settleStep (p : Nat) (out : Outcome) (s : Sys) : Sys :=
  let waiting := s.conts.filter (fun c => c.promise = p)
  let s1 := { s with conts := s.conts.filter (fun c => ¬ c.promise = p) }
  waiting.foldl (fun acc c => runCont c out acc) s1

/-- Scheduler events: each is one atomic synchronous run. -/
inductive Event where
  | mount : Nat → Option String → Event
  | refetch : Nat → Event
  | unmount : Nat → Event
  | settle : Nat → Outcome → Event
deriving DecidableEq, Repr

def step (s : Sys) (e : Event) : Sys :=
  match e with
  | .mount i key => mountStep i key s
  | .refetch i => refetchStep i s
  | .unmount i => unmountStep i s
  | .settle p out => settleStep p out s

def runTrace (es : List Event) : Sys := es.foldl step initSys

/-- A system state that some schedule of events can produce. -/
def Reachable (s : Sys) : Prop := ∃ es : List Event, runTrace es = s

/-- Semantics of `Set.prototype.forEach` as used on line 27
(`subscribers.get(cacheKey)?.forEach(callback => callback())`), modelled
for arbitrary callbacks: each callback transforms a shared state and may
throw.  State changes made before a throw persist; a throw aborts the
iteration and propagates. -/
def setForEach {σ ε : Type} : List (σ → σ × Option ε) → σ → σ × Option ε
  | [], s => (s, none)
  | cb :: rest, s =>
    match cb s with
    | (s1, none) => setForEach rest s1
    | (s1, some e) => (s1, some e)

/-- The field-population discipline that cache entries written by the code
actually satisfy: a Pending entry carries exactly the promise handle, a
Resolved entry carries the promise handle and the value, a Rejected entry
carries exactly the failure, and Idle entries are never stored. -/
def entryWF (e : CacheEntry) : Prop :=
  (e.status = .pending → e.promise.isSome = true ∧ e.data = none ∧ e.error = none) ∧
  (e.status = .resolved → e.promise.isSome = true ∧ e.data.isSome = true ∧ e.error = none) ∧
  (e.status = .rejected → e.promise = none ∧ e.data = none ∧ e.error.isSome = true) ∧
  e.status ≠ .idle

instance (e : CacheEntry) : Decidable (entryWF e) := by
  unfold entryWF; infer_instance

/-- The lifecycle-administration part of an instance: the fields no
settlement or notification ever changes. -/
def instAdmin (inst : Instance) : Option String × Nat × Bool × Nat :=
  (inst.key, inst.latestRequestId, inst.cleanupCalled, inst.lastStartEpoch)

/-- Every entry ever stored in the shared cache satisfies `entryWF`. -/
def CacheWF (s : Sys) : Prop :=
  ∀ k e, alookup s.cache k = some e → entryWF e

/-- For every live (not torn down) instance, the epoch captured at its most
recent fetch start equals its current epoch counter. -/
def EpochSync (s : Sys) : Prop :=
  ∀ i inst, getInst s i = some inst → inst.cleanupCalled = false →
    inst.lastStartEpoch = inst.latestRequestId

/-- Every suspended continuation carries an epoch at most its instance's
counter, strictly below it once the instance is torn down. -/
def ContBound (s : Sys) : Prop :=
  ∀ c, c ∈ s.conts → ∀ inst, getInst s c.inst = some inst →
    c.reqId ≤ inst.latestRequestId ∧
    (inst.cleanupCalled = true → c.reqId < inst.latestRequestId)

/-- Every suspended continuation belongs to an existing instance. -/
def ContOwner (s : Sys) : Prop :=
  ∀ c, c ∈ s.conts → (getInst s c.inst).isSome = true

/-- Before any settlement is applied or cached value adopted, an instance
exposes exactly `data = null`, `isLoading = true`, `error = null`. -/
def GhostInit (s : Sys) : Prop :=
  ∀ i inst, getInst s i = some inst → inst.ghostWrote = false →
    inst.data = none ∧ inst.isLoading = true ∧ inst.error = none

/-- The global invariant of reachable states. -/
def SysInv (s : Sys) : Prop :=
  CacheWF s ∧ EpochSync s ∧ ContBound s ∧ ContOwner s ∧ GhostInit s

/-! ## Association-list map lemmas -/

theorem alookup_aset {κ α : Type} [DecidableEq κ] (m : List (κ × α)) (k k2 : κ) (v : α) :
    alookup (aset m k v) k2 = if k = k2 then some v else alookup m k2 := by
  induction m with
  | nil => simp [aset, alookup]
  | cons hd tl ih =>
    obtain ⟨k1, v1⟩ := hd
    by_cases h1 : k1 = k
    · subst h1
      by_cases h2 : k1 = k2
      · subst h2
        simp [aset, alookup]
      · simp [aset, alookup, h2]
    · by_cases h2 : k1 = k2
      · subst h2
        have hk : ¬ k = k1 := fun h => h1 h.symm
        simp [aset, alookup, h1, hk]
      · simp [aset, alookup, h1, h2, ih]

theorem alookup_adel {κ α : Type} [DecidableEq κ] (m : List (κ × α)) (k k2 : κ) :
    alookup (adel m k) k2 = if k = k2 then none else alookup m k2 := by
  induction m with
  | nil => simp [adel, alookup]
  | cons hd tl ih =>
    obtain ⟨k1, v1⟩ := hd
    by_cases h1 : k1 = k
    · subst h1
      by_cases h2 : k1 = k2
      · subst h2
        simp [adel, alookup, ih]
      · simp [adel, alookup, h2, ih]
    · by_cases h2 : k1 = k2
      · subst h2
        have hk : ¬ k = k1 := fun h => h1 h.symm
        simp [adel, alookup, h1, hk]
      · simp [adel, alookup, h1, h2, ih]

/-! ## Instance-table lemmas -/

theorem getInst_putInst (s : Sys) (i j : Nat) (inst : Instance) :
    getInst (putInst s i inst) j = if i = j then some inst else getInst s j := by
  simp [getInst, putInst, alookup_aset]

theorem getInst_putInst_same (s : Sys) (i : Nat) (inst : Instance) :
    getInst (putInst s i inst) i = some inst := by
  simp [getInst_putInst]

theorem getInst_putInst_other (s : Sys) (i j : Nat) (inst : Instance) (h : ¬ i = j) :
    getInst (putInst s i inst) j = getInst s j := by
  simp [getInst_putInst, h]

theorem putInst_cache (s : Sys) (i : Nat) (inst : Instance) :
    (putInst s i inst).cache = s.cache := rfl

theorem putInst_subs (s : Sys) (i : Nat) (inst : Instance) :
    (putInst s i inst).subs = s.subs := rfl

theorem putInst_conts (s : Sys) (i : Nat) (inst : Instance) :
    (putInst s i inst).conts = s.conts := rfl

/-! ## Fold helpers -/

theorem foldl_preserve {α σ : Type} (f : σ → α → σ) (P : σ → Prop)
    (h : ∀ t a, P t → P (f t a)) :
    ∀ (l : List α) (t : σ), P t → P (l.foldl f t) := by
  intro l
  induction l with
  | nil => intro t ht; exact ht
  | cons a l ih => intro t ht; exact ih _ (h t a ht)

theorem foldl_preserve_mem {α σ : Type} (f : σ → α → σ) (P : σ → Prop) (l : List α)
    (h : ∀ t a, a ∈ l → P t → P (f t a)) :
    ∀ t, P t → P (l.foldl f t) := by
  induction l with
  | nil => intro t ht; exact ht
  | cons a l ih =>
    intro t ht
    exact ih (fun t b hb => h t b (List.mem_cons_of_mem a hb)) _ (h t a (List.mem_cons_self a l) ht)

/-! ## `handleCacheUpdate` case analysis -/

theorem handle_cases (k : String) (i : Nat) (s : Sys) :
    handleCacheUpdate k i s = s ∨
    ∃ inst cached, getInst s i = some inst ∧ inst.cleanupCalled = false ∧
      alookup s.cache k = some cached ∧
      ((cached.status = .resolved ∧
        handleCacheUpdate k i s =
          putInst s i { inst with data := cached.data, isLoading := false,
                                  error := none, ghostWrote := true }) ∨
       (cached.status = .rejected ∧
        handleCacheUpdate k i s =
          putInst s i { inst with error := cached.error, data := none,
                                  isLoading := false, ghostWrote := true })) := by
  unfold handleCacheUpdate
  split
  · exact Or.inl rfl
  next inst hins =>
    split
    next hcl => exact Or.inl rfl
    next hcl =>
      split
      · exact Or.inl rfl
      next cached hc =>
        split
        next hres =>
          exact Or.inr ⟨inst, cached, hins, by simpa using hcl, hc, Or.inl ⟨hres, rfl⟩⟩
        next hres =>
          split
          next hrej =>
            exact Or.inr ⟨inst, cached, hins, by simpa using hcl, hc, Or.inr ⟨hrej, rfl⟩⟩
          next hrej => exact Or.inl rfl

theorem handle_cache_eq (k : String) (i : Nat) (s : Sys) :
    (handleCacheUpdate k i s).cache = s.cache := by
  rcases handle_cases k i s with h | ⟨inst, cached, hg, hc, hk, ⟨hs, h⟩ | ⟨hs, h⟩⟩ <;>
    simp [h, putInst_cache]

theorem handle_subs_eq (k : String) (i : Nat) (s : Sys) :
    (handleCacheUpdate k i s).subs = s.subs := by
  rcases handle_cases k i s with h | ⟨inst, cached, hg, hc, hk, ⟨hs, h⟩ | ⟨hs, h⟩⟩ <;>
    simp [h, putInst_subs]

theorem handle_conts_eq (k : String) (i : Nat) (s : Sys) :
    (handleCacheUpdate k i s).conts = s.conts := by
  rcases handle_cases k i s with h | ⟨inst, cached, hg, hc, hk, ⟨hs, h⟩ | ⟨hs, h⟩⟩ <;>
    simp [h, putInst_conts]

theorem handle_getInst_other (k : String) (i j : Nat) (s : Sys) (hij : ¬ i = j) :
    getInst (handleCacheUpdate k i s) j = getInst s j := by
  rcases handle_cases k i s with h | ⟨inst, cached, hg, hc, hk, ⟨hs, h⟩ | ⟨hs, h⟩⟩ <;>
    simp [h, getInst_putInst, hij]

theorem handle_admin (k : String) (i j : Nat) (s : Sys) :
    (getInst (handleCacheUpdate k i s) j).map instAdmin = (getInst s j).map instAdmin := by
  rcases handle_cases k i s with h | ⟨inst, cached, hg, hc, hk, ⟨hs, h⟩ | ⟨hs, h⟩⟩
  · rw [h]
  all_goals
    rw [h, getInst_putInst]
    by_cases hij : i = j
    · subst hij
      simp [hg, instAdmin]
    · simp [hij]

theorem handle_torn (k : String) (i j : Nat) (s : Sys) (inst : Instance)
    (hg : getInst s j = some inst) (hc : inst.cleanupCalled = true) :
    getInst (handleCacheUpdate k i s) j = some inst := by
  rcases handle_cases k i s with h | ⟨inst2, cached, hg2, hc2, hk2, ⟨hs, h⟩ | ⟨hs, h⟩⟩
  · rw [h, hg]
  all_goals
    rw [h, getInst_putInst]
    by_cases hij : i = j
    · subst hij
      rw [hg] at hg2
      injection hg2 with hg2
      subst hg2
      rw [hc] at hc2
      exact Bool.noConfusion hc2
    · simp [hij, hg]

theorem handle_ghost (k : String) (i : Nat) (s : Sys) (h : GhostInit s) :
    GhostInit (handleCacheUpdate k i s) := by
  rcases handle_cases k i s with heq | ⟨inst, cached, hg, hc, hk, ⟨hs, heq⟩ | ⟨hs, heq⟩⟩
  · rw [heq]; exact h
  all_goals
    intro j inst' hj hng
    rw [heq, getInst_putInst] at hj
    by_cases hij : i = j
    · rw [if_pos hij] at hj
      injection hj with hj
      rw [← hj] at hng
      simp at hng
    · rw [if_neg hij] at hj
      exact h j inst' hj hng

/-! ## `notifySubscribers` lemmas -/

theorem notify_cache_eq (k : String) (s : Sys) :
    (notifySubscribers k s).cache = s.cache := by
  unfold notifySubscribers
  split
  · rfl
  next ids hid =>
    refine foldl_preserve (fun acc i => handleCacheUpdate k i acc)
      (fun t => t.cache = s.cache) (fun t a ht => ?_) ids s rfl
    dsimp only
    rw [handle_cache_eq]
    exact ht

theorem notify_subs_eq (k : String) (s : Sys) :
    (notifySubscribers k s).subs = s.subs := by
  unfold notifySubscribers
  split
  · rfl
  next ids hid =>
    refine foldl_preserve (fun acc i => handleCacheUpdate k i acc)
      (fun t => t.subs = s.subs) (fun t a ht => ?_) ids s rfl
    dsimp only
    rw [handle_subs_eq]
    exact ht

theorem notify_conts_eq (k : String) (s : Sys) :
    (notifySubscribers k s).conts = s.conts := by
  unfold notifySubscribers
  split
  · rfl
  next ids hid =>
    refine foldl_preserve (fun acc i => handleCacheUpdate k i acc)
      (fun t => t.conts = s.conts) (fun t a ht => ?_) ids s rfl
    dsimp only
    rw [handle_conts_eq]
    exact ht

theorem notify_admin (k : String) (s : Sys) (j : Nat) :
    (getInst (notifySubscribers k s) j).map instAdmin = (getInst s j).map instAdmin := by
  unfold notifySubscribers
  split
  · rfl
  next ids hid =>
    refine foldl_preserve (fun acc i => handleCacheUpdate k i acc)
      (fun t => (getInst t j).map instAdmin = (getInst s j).map instAdmin)
      (fun t a ht => ?_) ids s rfl
    dsimp only
    rw [handle_admin]
    exact ht

theorem notify_torn (k : String) (s : Sys) (i : Nat) (inst : Instance)
    (hc : inst.cleanupCalled = true) (hg : getInst s i = some inst) :
    getInst (notifySubscribers k s) i = some inst := by
  unfold notifySubscribers
  split
  · exact hg
  next ids hid =>
    refine foldl_preserve (fun acc i => handleCacheUpdate k i acc)
      (fun t => getInst t i = some inst) (fun t a ht => ?_) ids s hg
    dsimp only
    exact handle_torn k a i t inst ht hc

theorem notify_ghost (k : String) (s : Sys) (h : GhostInit s) :
    GhostInit (notifySubscribers k s) := by
  unfold notifySubscribers
  split
  · exact h
  next ids hid =>
    exact foldl_preserve (fun acc i => handleCacheUpdate k i acc) GhostInit
      (fun t a ht => handle_ghost k a t ht) ids s h

/-! ## Admin-projection helpers -/

theorem admin_eq_of_map (o1 o2 : Option Instance)
    (h : o1.map instAdmin = o2.map instAdmin) (inst1 : Instance) (h1 : o1 = some inst1) :
    ∃ inst2, o2 = some inst2 ∧ inst1.key = inst2.key ∧
      inst1.latestRequestId = inst2.latestRequestId ∧
      inst1.cleanupCalled = inst2.cleanupCalled ∧
      inst1.lastStartEpoch = inst2.lastStartEpoch := by
  subst h1
  cases o2 with
  | none => simp at h
  | some inst2 =>
    refine ⟨inst2, rfl, ?_⟩
    have h2 : instAdmin inst1 = instAdmin inst2 := by simpa using h
    simp only [instAdmin, Prod.mk.injEq] at h2
    exact ⟨h2.1, h2.2.1, h2.2.2.1, h2.2.2.2⟩

/-! ## `publishSettle` lemmas -/

theorem getInst_setCache (s : Sys) (m : List (String × CacheEntry)) (j : Nat) :
    getInst { s with cache := m } j = getInst s j := rfl

theorem publish_conts_eq (i : Nat) (k : String) (entry : CacheEntry) (s : Sys) :
    (publishSettle i k entry s).conts = s.conts := by
  unfold publishSettle
  dsimp only
  split <;> simp [notify_conts_eq, putInst_conts]

theorem publish_subs_eq (i : Nat) (k : String) (entry : CacheEntry) (s : Sys) :
    (publishSettle i k entry s).subs = s.subs := by
  unfold publishSettle
  dsimp only
  split <;> simp [notify_subs_eq, putInst_subs]

theorem publish_cache (i : Nat) (k : String) (entry : CacheEntry) (s : Sys) :
    (publishSettle i k entry s).cache = aset s.cache k entry := by
  unfold publishSettle
  dsimp only
  split <;> simp [notify_cache_eq, putInst_cache]

theorem publish_admin (i : Nat) (k : String) (entry : CacheEntry) (s : Sys) (j : Nat) :
    (getInst (publishSettle i k entry s) j).map instAdmin = (getInst s j).map instAdmin := by
  unfold publishSettle
  dsimp only
  split
  next inst2 hg2 =>
    rw [notify_admin, getInst_putInst]
    by_cases hij : i = j
    · subst hij
      rw [getInst_setCache] at hg2
      simp [hg2, instAdmin]
    · simp [hij, getInst_setCache]
  next hg2 =>
    rw [notify_admin, getInst_setCache]

theorem publish_torn (i : Nat) (k : String) (entry : CacheEntry) (s : Sys)
    (j : Nat) (inst : Instance) (hij : ¬ i = j)
    (hg : getInst s j = some inst) (hc : inst.cleanupCalled = true) :
    getInst (publishSettle i k entry s) j = some inst := by
  unfold publishSettle
  dsimp only
  split
  next inst2 hg2 =>
    refine notify_torn k _ j inst hc ?_
    rw [getInst_putInst_other _ _ _ _ hij, getInst_setCache]
    exact hg
  next hg2 =>
    refine notify_torn k _ j inst hc ?_
    rw [getInst_setCache]
    exact hg

theorem publish_ghost (i : Nat) (k : String) (entry : CacheEntry) (s : Sys)
    (h : GhostInit s) : GhostInit (publishSettle i k entry s) := by
  unfold publishSettle
  dsimp only
  split
  next inst2 hg2 =>
    refine notify_ghost k _ ?_
    intro j inst' hj hng
    rw [getInst_putInst] at hj
    by_cases hij : i = j
    · rw [if_pos hij] at hj
      injection hj with hj
      rw [getInst_setCache] at hg2
      subst hij
      rw [← hj] at hng ⊢
      have h2 := h i inst2 hg2 (by simpa using hng)
      simpa using h2
    · rw [if_neg hij, getInst_setCache] at hj
      exact h j inst' hj hng
  next hg2 =>
    refine notify_ghost k _ ?_
    intro j inst' hj hng
    rw [getInst_setCache] at hj
    exact h j inst' hj hng

theorem handle_ghost_true (k : String) (a : Nat) (s : Sys) (i : Nat) (inst : Instance)
    (hg : getInst s i = some inst) (hgw : inst.ghostWrote = true) :
    ∃ inst2, getInst (handleCacheUpdate k a s) i = some inst2 ∧ inst2.ghostWrote = true := by
  rcases handle_cases k a s with h | ⟨inst3, cached, hg3, hc3, hk3, ⟨hs, h⟩ | ⟨hs, h⟩⟩
  · exact ⟨inst, by rw [h]; exact hg, hgw⟩
  all_goals
    rw [h, getInst_putInst]
    by_cases hij : a = i
    · subst hij
      exact ⟨_, by rw [if_pos rfl], rfl⟩
    · rw [if_neg hij]
      exact ⟨inst, hg, hgw⟩

theorem notify_ghost_true (k : String) (s : Sys) (i : Nat) (inst : Instance)
    (hg : getInst s i = some inst) (hgw : inst.ghostWrote = true) :
    ∃ inst2, getInst (notifySubscribers k s) i = some inst2 ∧ inst2.ghostWrote = true := by
  unfold notifySubscribers
  split
  · exact ⟨inst, hg, hgw⟩
  next ids hid =>
    refine foldl_preserve (fun acc i => handleCacheUpdate k i acc)
      (fun t => ∃ inst2, getInst t i = some inst2 ∧ inst2.ghostWrote = true)
      (fun t a ht => ?_) ids s ⟨inst, hg, hgw⟩
    obtain ⟨inst2, hg2, hgw2⟩ := ht
    exact handle_ghost_true k a t i inst2 hg2 hgw2

theorem publish_ghost_true (i : Nat) (k : String) (entry : CacheEntry) (s : Sys)
    (inst : Instance) (hg : getInst s i = some inst) (hgw : inst.ghostWrote = true) :
    ∃ inst2, getInst (publishSettle i k entry s) i = some inst2 ∧ inst2.ghostWrote = true := by
  unfold publishSettle
  dsimp only
  split
  next inst2 hg2 =>
    refine notify_ghost_true k _ i _ (getInst_putInst_same _ _ _) ?_
    rw [getInst_setCache] at hg2
    rw [hg] at hg2
    injection hg2 with hg2
    rw [← hg2]
    exact hgw
  next hg2 =>
    rw [getInst_setCache] at hg2
    rw [hg] at hg2
    cases hg2

/-! ## Settle-body and finally lemmas -/

theorem putInst_admin (s : Sys) (i : Nat) (inst rec : Instance) (hg : getInst s i = some inst)
    (ha : instAdmin rec = instAdmin inst) (j : Nat) :
    (getInst (putInst s i rec) j).map instAdmin = (getInst s j).map instAdmin := by
  rw [getInst_putInst]
  by_cases hij : i = j
  · subst hij
    rw [hg, if_pos rfl]
    simp [ha]
  · rw [if_neg hij]

theorem putInst_ghostTrue (s : Sys) (i : Nat) (rec : Instance) (hr : rec.ghostWrote = true)
    (h : GhostInit s) : GhostInit (putInst s i rec) := by
  intro j inst' hj hng
  rw [getInst_putInst] at hj
  by_cases hij : i = j
  · rw [if_pos hij] at hj
    injection hj with hj
    rw [← hj] at hng
    rw [hr] at hng
    cases hng
  · rw [if_neg hij] at hj
    exact h j inst' hj hng

theorem publish_cacheWF (i : Nat) (k : String) (entry : CacheEntry) (s : Sys)
    (hw : CacheWF s) (he : entryWF entry) : CacheWF (publishSettle i k entry s) := by
  intro k2 e2 he2
  rw [publish_cache, alookup_aset] at he2
  by_cases hk : k = k2
  · rw [if_pos hk] at he2
    injection he2 with he2
    rw [← he2]
    exact he
  · rw [if_neg hk] at he2
    exact hw k2 e2 he2

theorem cacheWF_of_eq (s t : Sys) (h : t.cache = s.cache) (hw : CacheWF s) : CacheWF t := by
  intro k e he
  rw [h] at he
  exact hw k e he

theorem entryWF_pendingEntry (p : Nat) : entryWF (pendingEntry p) := by
  refine ⟨fun _ => ⟨rfl, rfl, rfl⟩, fun h => ?_, fun h => ?_, by simp [pendingEntry]⟩ <;>
    simp [pendingEntry] at h

theorem entryWF_resolvedEntry (p : Nat) (v : JVal) : entryWF (resolvedEntry p v) := by
  refine ⟨fun h => ?_, fun _ => ⟨rfl, rfl, rfl⟩, fun h => ?_, by simp [resolvedEntry]⟩ <;>
    simp [resolvedEntry] at h

theorem entryWF_rejectedEntry (e : JVal) : entryWF (rejectedEntry e) := by
  refine ⟨fun h => ?_, fun h => ?_, fun _ => ⟨rfl, rfl, rfl⟩, by simp [rejectedEntry]⟩ <;>
    simp [rejectedEntry] at h

theorem body_none (c : Await) (out : Outcome) (s : Sys) (hg : getInst s c.inst = none) :
    fetchSettleBody c out s = s := by
  unfold fetchSettleBody
  rw [hg]

theorem body_stale (c : Await) (out : Outcome) (s : Sys) (inst : Instance)
    (hg : getInst s c.inst = some inst) (hne : ¬ c.reqId = inst.latestRequestId) :
    fetchSettleBody c out s = s := by
  unfold fetchSettleBody
  rw [hg]
  rcases out with v | e <;> dsimp only <;> rw [if_neg hne]

theorem fin_none (c : Await) (s : Sys) (hg : getInst s c.inst = none) :
    fetchFinally c s = s := by
  unfold fetchFinally
  rw [hg]

theorem fin_stale (c : Await) (s : Sys) (inst : Instance)
    (hg : getInst s c.inst = some inst) (hne : ¬ c.reqId = inst.latestRequestId) :
    fetchFinally c s = s := by
  unfold fetchFinally
  rw [hg]
  dsimp only
  rw [if_neg hne]

theorem abody_none (c : Await) (out : Outcome) (s : Sys) (hg : getInst s c.inst = none) :
    attachSettleBody c out s = s := by
  unfold attachSettleBody
  rw [hg]

theorem abody_gate_fail (c : Await) (out : Outcome) (s : Sys) (inst : Instance)
    (hg : getInst s c.inst = some inst)
    (hgate : ¬ (inst.cleanupCalled = false ∧ c.reqId = inst.latestRequestId)) :
    attachSettleBody c out s = s := by
  unfold attachSettleBody
  rw [hg]
  rcases out with v | e <;> dsimp only <;> rw [if_neg hgate]

theorem afin_none (c : Await) (s : Sys) (hg : getInst s c.inst = none) :
    attachFinally c s = s := by
  unfold attachFinally
  rw [hg]

theorem afin_gate_fail (c : Await) (s : Sys) (inst : Instance)
    (hg : getInst s c.inst = some inst)
    (hgate : ¬ (inst.cleanupCalled = false ∧ c.reqId = inst.latestRequestId)) :
    attachFinally c s = s := by
  unfold attachFinally
  rw [hg]
  dsimp only
  rw [if_neg hgate]

theorem body_conts_eq (c : Await) (out : Outcome) (s : Sys) :
    (fetchSettleBody c out s).conts = s.conts := by
  unfold fetchSettleBody
  repeat' split
  all_goals simp [publish_conts_eq, putInst_conts]

theorem body_subs_eq (c : Await) (out : Outcome) (s : Sys) :
    (fetchSettleBody c out s).subs = s.subs := by
  unfold fetchSettleBody
  repeat' split
  all_goals simp [publish_subs_eq, putInst_subs]

theorem fin_conts_eq (c : Await) (s : Sys) : (fetchFinally c s).conts = s.conts := by
  unfold fetchFinally
  repeat' split
  all_goals simp [putInst_conts]

theorem fin_subs_eq (c : Await) (s : Sys) : (fetchFinally c s).subs = s.subs := by
  unfold fetchFinally
  repeat' split
  all_goals simp [putInst_subs]

theorem fin_cache_eq (c : Await) (s : Sys) : (fetchFinally c s).cache = s.cache := by
  unfold fetchFinally
  repeat' split
  all_goals simp [putInst_cache]

theorem abody_conts_eq (c : Await) (out : Outcome) (s : Sys) :
    (attachSettleBody c out s).conts = s.conts := by
  unfold attachSettleBody
  repeat' split
  all_goals simp [putInst_conts]

theorem abody_subs_eq (c : Await) (out : Outcome) (s : Sys) :
    (attachSettleBody c out s).subs = s.subs := by
  unfold attachSettleBody
  repeat' split
  all_goals simp [putInst_subs]

theorem abody_cache_eq (c : Await) (out : Outcome) (s : Sys) :
    (attachSettleBody c out s).cache = s.cache := by
  unfold attachSettleBody
  repeat' split
  all_goals simp [putInst_cache]

theorem afin_conts_eq (c : Await) (s : Sys) : (attachFinally c s).conts = s.conts := by
  unfold attachFinally
  repeat' split
  all_goals simp [putInst_conts]

theorem afin_subs_eq (c : Await) (s : Sys) : (attachFinally c s).subs = s.subs := by
  unfold attachFinally
  repeat' split
  all_goals simp [putInst_subs]

theorem afin_cache_eq (c : Await) (s : Sys) : (attachFinally c s).cache = s.cache := by
  unfold attachFinally
  repeat' split
  all_goals simp [putInst_cache]

theorem body_admin (c : Await) (out : Outcome) (s : Sys) (j : Nat) :
    (getInst (fetchSettleBody c out s) j).map instAdmin = (getInst s j).map instAdmin := by
  unfold fetchSettleBody
  split
  · rfl
  next inst hg =>
    rcases out with v | e <;> dsimp only <;> split
    case isTrue =>
      split
      · rw [publish_admin]
        exact putInst_admin s c.inst inst _ hg (by simp [instAdmin]) j
      · exact putInst_admin s c.inst inst _ hg (by simp [instAdmin]) j
    case isFalse => rfl
    case isTrue =>
      split
      · rw [publish_admin]
        exact putInst_admin s c.inst inst _ hg (by simp [instAdmin]) j
      · exact putInst_admin s c.inst inst _ hg (by simp [instAdmin]) j
    case isFalse => rfl

theorem fin_admin (c : Await) (s : Sys) (j : Nat) :
    (getInst (fetchFinally c s) j).map instAdmin = (getInst s j).map instAdmin := by
  unfold fetchFinally
  split
  · rfl
  next instf hgf =>
    split
    · exact putInst_admin s c.inst instf _ hgf (by simp [instAdmin]) j
    · rfl

theorem abody_admin (c : Await) (out : Outcome) (s : Sys) (j : Nat) :
    (getInst (attachSettleBody c out s) j).map instAdmin = (getInst s j).map instAdmin := by
  unfold attachSettleBody
  split
  · rfl
  next inst hg =>
    rcases out with v | e <;> dsimp only <;> split
    case isTrue => exact putInst_admin s c.inst inst _ hg (by simp [instAdmin]) j
    case isFalse => rfl
    case isTrue => exact putInst_admin s c.inst inst _ hg (by simp [instAdmin]) j
    case isFalse => rfl

theorem afin_admin (c : Await) (s : Sys) (j : Nat) :
    (getInst (attachFinally c s) j).map instAdmin = (getInst s j).map instAdmin := by
  unfold attachFinally
  split
  · rfl
  next instf hgf =>
    split
    · exact putInst_admin s c.inst instf _ hgf (by simp [instAdmin]) j
    · rfl

theorem body_other (c : Await) (out : Outcome) (s : Sys) (j : Nat) (inst : Instance)
    (hij : ¬ c.inst = j) (hg : getInst s j = some inst) (hc : inst.cleanupCalled = true) :
    getInst (fetchSettleBody c out s) j = some inst := by
  unfold fetchSettleBody
  split
  · exact hg
  next inst2 hg2 =>
    rcases out with v | e <;> dsimp only <;> split
    case isTrue =>
      split
      · refine publish_torn _ _ _ _ j inst hij ?_ hc
        rw [getInst_putInst_other _ _ _ _ hij]
        exact hg
      · rw [getInst_putInst_other _ _ _ _ hij]
        exact hg
    case isFalse => exact hg
    case isTrue =>
      split
      · refine publish_torn _ _ _ _ j inst hij ?_ hc
        rw [getInst_putInst_other _ _ _ _ hij]
        exact hg
      · rw [getInst_putInst_other _ _ _ _ hij]
        exact hg
    case isFalse => exact hg

theorem fin_other (c : Await) (s : Sys) (j : Nat) (hij : ¬ c.inst = j) :
    getInst (fetchFinally c s) j = getInst s j := by
  unfold fetchFinally
  repeat' split
  all_goals simp [getInst_putInst_other _ _ _ _ hij]

theorem abody_other (c : Await) (out : Outcome) (s : Sys) (j : Nat) (hij : ¬ c.inst = j) :
    getInst (attachSettleBody c out s) j = getInst s j := by
  unfold attachSettleBody
  repeat' split
  all_goals simp [getInst_putInst_other _ _ _ _ hij]

theorem afin_other (c : Await) (s : Sys) (j : Nat) (hij : ¬ c.inst = j) :
    getInst (attachFinally c s) j = getInst s j := by
  unfold attachFinally
  repeat' split
  all_goals simp [getInst_putInst_other _ _ _ _ hij]

theorem body_ghost (c : Await) (out : Outcome) (s : Sys) (h : GhostInit s) :
    GhostInit (fetchSettleBody c out s) := by
  unfold fetchSettleBody
  split
  · exact h
  next inst hg =>
    rcases out with v | e <;> dsimp only <;> split
    case isTrue =>
      split
      · exact publish_ghost _ _ _ _ (putInst_ghostTrue s c.inst _ rfl h)
      · exact putInst_ghostTrue s c.inst _ rfl h
    case isFalse => exact h
    case isTrue =>
      split
      · exact publish_ghost _ _ _ _ (putInst_ghostTrue s c.inst _ rfl h)
      · exact putInst_ghostTrue s c.inst _ rfl h
    case isFalse => exact h

theorem abody_ghost (c : Await) (out : Outcome) (s : Sys) (h : GhostInit s) :
    GhostInit (attachSettleBody c out s) := by
  unfold attachSettleBody
  split
  · exact h
  next inst hg =>
    rcases out with v | e <;> dsimp only <;> split
    case isTrue => exact putInst_ghostTrue s c.inst _ rfl h
    case isFalse => exact h
    case isTrue => exact putInst_ghostTrue s c.inst _ rfl h
    case isFalse => exact h

theorem body_ghost_true (c : Await) (out : Outcome) (s : Sys) (inst : Instance)
    (hg : getInst s c.inst = some inst) (hq : c.reqId = inst.latestRequestId) :
    ∃ inst2, getInst (fetchSettleBody c out s) c.inst = some inst2 ∧
      inst2.ghostWrote = true := by
  unfold fetchSettleBody
  rw [hg]
  rcases out with v | e <;> dsimp only <;> rw [if_pos hq] <;> split
  · exact publish_ghost_true _ _ _ _ _ (getInst_putInst_same _ _ _) rfl
  · exact ⟨_, getInst_putInst_same _ _ _, rfl⟩
  · exact publish_ghost_true _ _ _ _ _ (getInst_putInst_same _ _ _) rfl
  · exact ⟨_, getInst_putInst_same _ _ _, rfl⟩

theorem abody_ghost_true (c : Await) (out : Outcome) (s : Sys) (inst : Instance)
    (hg : getInst s c.inst = some inst)
    (hq : inst.cleanupCalled = false ∧ c.reqId = inst.latestRequestId) :
    ∃ inst2, getInst (attachSettleBody c out s) c.inst = some inst2 ∧
      inst2.ghostWrote = true := by
  unfold attachSettleBody
  rw [hg]
  rcases out with v | e <;> dsimp only <;> rw [if_pos hq]
  · exact ⟨_, getInst_putInst_same _ _ _, rfl⟩
  · exact ⟨_, getInst_putInst_same _ _ _, rfl⟩

theorem fin_ghost (c : Await) (s : Sys) (h : GhostInit s)
    (hcond : ∀ instf, getInst s c.inst = some instf → c.reqId = instf.latestRequestId →
      instf.ghostWrote = true) : GhostInit (fetchFinally c s) := by
  unfold fetchFinally
  split
  · exact h
  next instf hgf =>
    split
    next hq =>
      intro j inst' hj hng
      rw [getInst_putInst] at hj
      by_cases hij : c.inst = j
      · rw [if_pos hij] at hj
        injection hj with hj
        rw [← hj] at hng
        have hng2 : instf.ghostWrote = false := hng
        rw [hcond instf hgf hq] at hng2
        cases hng2
      · rw [if_neg hij] at hj
        exact h j inst' hj hng
    · exact h

theorem afin_ghost (c : Await) (s : Sys) (h : GhostInit s)
    (hcond : ∀ instf, getInst s c.inst = some instf →
      instf.cleanupCalled = false ∧ c.reqId = instf.latestRequestId →
      instf.ghostWrote = true) : GhostInit (attachFinally c s) := by
  unfold attachFinally
  split
  · exact h
  next instf hgf =>
    split
    next hq =>
      intro j inst' hj hng
      rw [getInst_putInst] at hj
      by_cases hij : c.inst = j
      · rw [if_pos hij] at hj
        injection hj with hj
        rw [← hj] at hng
        have hng2 : instf.ghostWrote = false := hng
        rw [hcond instf hgf hq] at hng2
        cases hng2
      · rw [if_neg hij] at hj
        exact h j inst' hj hng
    · exact h

theorem body_cacheWF (c : Await) (out : Outcome) (s : Sys) (hw : CacheWF s) :
    CacheWF (fetchSettleBody c out s) := by
  unfold fetchSettleBody
  split
  · exact hw
  next inst hg =>
    rcases out with v | e <;> dsimp only <;> split
    case isTrue =>
      split
      · exact publish_cacheWF _ _ _ _ (cacheWF_of_eq s _ rfl hw) (entryWF_resolvedEntry _ _)
      · exact cacheWF_of_eq s _ rfl hw
    case isFalse => exact hw
    case isTrue =>
      split
      · exact publish_cacheWF _ _ _ _ (cacheWF_of_eq s _ rfl hw) (entryWF_rejectedEntry _)
      · exact cacheWF_of_eq s _ rfl hw
    case isFalse => exact hw

/-! ## `runCont` composite lemmas -/

theorem runCont_conts_eq (c : Await) (out : Outcome) (s : Sys) :
    (runCont c out s).conts = s.conts := by
  unfold runCont
  split <;>
    simp [fetchResume, attachResume, fin_conts_eq, afin_conts_eq, body_conts_eq,
          abody_conts_eq]

theorem runCont_subs_eq (c : Await) (out : Outcome) (s : Sys) :
    (runCont c out s).subs = s.subs := by
  unfold runCont
  split <;>
    simp [fetchResume, attachResume, fin_subs_eq, afin_subs_eq, body_subs_eq,
          abody_subs_eq]

theorem runCont_admin (c : Await) (out : Outcome) (s : Sys) (j : Nat) :
    (getInst (runCont c out s) j).map instAdmin = (getInst s j).map instAdmin := by
  unfold runCont
  split
  · unfold fetchResume
    rw [fin_admin, body_admin]
  · unfold attachResume
    rw [afin_admin, abody_admin]

theorem runCont_stale (c : Await) (out : Outcome) (s : Sys) (inst : Instance)
    (hg : getInst s c.inst = some inst) (hne : ¬ c.reqId = inst.latestRequestId) :
    runCont c out s = s := by
  unfold runCont
  split
  · unfold fetchResume
    rw [body_stale c out s inst hg hne, fin_stale c s inst hg hne]
  · unfold attachResume
    have hgate : ¬ (inst.cleanupCalled = false ∧ c.reqId = inst.latestRequestId) :=
      fun h => hne h.2
    rw [abody_gate_fail c out s inst hg hgate, afin_gate_fail c s inst hg hgate]

theorem runCont_torn (c : Await) (out : Outcome) (s : Sys) (j : Nat) (inst : Instance)
    (hg : getInst s j = some inst) (hc : inst.cleanupCalled = true)
    (hgate : c.inst = j → ¬ c.reqId = inst.latestRequestId) :
    getInst (runCont c out s) j = some inst := by
  by_cases hij : c.inst = j
  · have hne := hgate hij
    subst hij
    rw [runCont_stale c out s inst hg hne]
    exact hg
  · unfold runCont
    split
    · unfold fetchResume
      rw [fin_other c _ j hij]
      exact body_other c out s j inst hij hg hc
    · unfold attachResume
      rw [afin_other c _ j hij, abody_other c out s j hij]
      exact hg

theorem runCont_cacheWF (c : Await) (out : Outcome) (s : Sys) (hw : CacheWF s) :
    CacheWF (runCont c out s) := by
  unfold runCont
  split
  · unfold fetchResume
    exact cacheWF_of_eq _ _ (fin_cache_eq _ _) (body_cacheWF c out s hw)
  · unfold attachResume
    refine cacheWF_of_eq _ _ (afin_cache_eq _ _) ?_
    exact cacheWF_of_eq _ _ (abody_cache_eq _ _ _) hw

theorem runCont_ghost (c : Await) (out : Outcome) (s : Sys) (h : GhostInit s) :
    GhostInit (runCont c out s) := by
  unfold runCont
  split
  · unfold fetchResume
    refine fin_ghost c _ (body_ghost c out s h) ?_
    intro instf hgf hq
    cases hgI : getInst s c.inst with
    | none =>
      rw [body_none c out s hgI, hgI] at hgf
      cases hgf
    | some inst =>
      by_cases hq0 : c.reqId = inst.latestRequestId
      · obtain ⟨inst2, hg2, hgw2⟩ := body_ghost_true c out s inst hgI hq0
        rw [hgf] at hg2
        injection hg2 with hg2
        rw [hg2]
        exact hgw2
      · rw [body_stale c out s inst hgI hq0, hgI] at hgf
        injection hgf with hgf
        rw [← hgf] at hq
        exact absurd hq hq0
  · unfold attachResume
    refine afin_ghost c _ (abody_ghost c out s h) ?_
    intro instf hgf hq
    cases hgI : getInst s c.inst with
    | none =>
      rw [abody_none c out s hgI, hgI] at hgf
      cases hgf
    | some inst =>
      by_cases hq0 : inst.cleanupCalled = false ∧ c.reqId = inst.latestRequestId
      · obtain ⟨inst2, hg2, hgw2⟩ := abody_ghost_true c out s inst hgI hq0
        rw [hgf] at hg2
        injection hg2 with hg2
        rw [hg2]
        exact hgw2
      · rw [abody_gate_fail c out s inst hgI hq0, hgI] at hgf
        injection hgf with hgf
        rw [← hgf] at hq
        exact absurd hq hq0

theorem body_cache_keyless (c : Await) (out : Outcome) (s : Sys) (hk : c.key = none) :
    (fetchSettleBody c out s).cache = s.cache := by
  unfold fetchSettleBody
  split
  · rfl
  next inst hg =>
    rcases out with v | e <;> dsimp only <;> split
    all_goals simp [hk, putInst_cache]

theorem runCont_cache_keyless (c : Await) (out : Outcome) (s : Sys) (hk : c.key = none) :
    (runCont c out s).cache = s.cache := by
  unfold runCont
  split
  · unfold fetchResume
    rw [fin_cache_eq, body_cache_keyless c out s hk]
  · unfold attachResume
    rw [afin_cache_eq, abody_cache_eq]

/-! ## Invariant preservation -/

theorem putInst_inv_upd (s : Sys) (i : Nat) (inst rec : Instance)
    (hg : getInst s i = some inst)
    (ha : instAdmin rec = instAdmin inst)
    (hgh : rec.ghostWrote = true ∨
      (rec.ghostWrote = inst.ghostWrote ∧ rec.data = inst.data ∧
       rec.isLoading = inst.isLoading ∧ rec.error = inst.error) ∨
      (rec.ghostWrote = inst.ghostWrote ∧ rec.data = inst.data ∧
       rec.isLoading = true ∧ rec.error = none))
    (h : SysInv s) : SysInv (putInst s i rec) := by
  obtain ⟨hw, he, hb, ho, hgi⟩ := h
  have hadm := fun j => putInst_admin s i inst rec hg ha j
  refine ⟨?_, ?_, ?_, ?_, ?_⟩
  · exact cacheWF_of_eq s _ (putInst_cache s i rec) hw
  · intro j inst' hgj hclj
    obtain ⟨inst2, hg2, hkey, hlat, hcl2, hls2⟩ := admin_eq_of_map _ _ (hadm j) inst' hgj
    rw [hls2, hlat]
    refine he j inst2 hg2 ?_
    rw [← hcl2]
    exact hclj
  · intro c hc inst' hgj
    rw [putInst_conts] at hc
    obtain ⟨inst2, hg2, hkey, hlat, hcl2, hls2⟩ :=
      admin_eq_of_map _ _ (hadm c.inst) inst' hgj
    rw [hlat, hcl2]
    exact hb c hc inst2 hg2
  · intro c hc
    rw [putInst_conts] at hc
    rw [getInst_putInst]
    by_cases hic : i = c.inst
    · rw [if_pos hic]
      rfl
    · rw [if_neg hic]
      exact ho c hc
  · intro j inst' hgj hng
    rw [getInst_putInst] at hgj
    by_cases hij : i = j
    · rw [if_pos hij] at hgj
      injection hgj with hgj
      subst hgj
      rcases hgh with h1 | ⟨h1, h2, h3, h4⟩ | ⟨h1, h2, h3, h4⟩
      · rw [h1] at hng
        cases hng
      · rw [h1] at hng
        obtain ⟨d1, d2, d3⟩ := hgi i inst hg hng
        rw [h2, h3, h4]
        exact ⟨d1, d2, d3⟩
      · rw [h1] at hng
        obtain ⟨d1, d2, d3⟩ := hgi i inst hg hng
        rw [h2, h3, h4]
        exact ⟨d1, rfl, rfl⟩
    · rw [if_neg hij] at hgj
      exact hgi j inst' hgj hng

theorem putInst_inv_gen (s : Sys) (i : Nat) (inst rec : Instance)
    (hg : getInst s i = some inst) (h : SysInv s)
    (_hkey : rec.key = inst.key)
    (hlat : inst.latestRequestId ≤ rec.latestRequestId)
    (hcl2 : rec.cleanupCalled = true →
      inst.latestRequestId < rec.latestRequestId ∨ inst.cleanupCalled = true)
    (hes : rec.cleanupCalled = false → rec.lastStartEpoch = rec.latestRequestId)
    (hgh : rec.ghostWrote = true ∨
      (rec.ghostWrote = inst.ghostWrote ∧ rec.data = inst.data ∧
       ((rec.isLoading = inst.isLoading ∧ rec.error = inst.error) ∨
        (rec.isLoading = true ∧ rec.error = none)))) :
    SysInv (putInst s i rec) := by
  obtain ⟨hw, he, hb, ho, hgi⟩ := h
  refine ⟨?_, ?_, ?_, ?_, ?_⟩
  · exact cacheWF_of_eq s _ (putInst_cache s i rec) hw
  · intro j inst' hgj hclj
    rw [getInst_putInst] at hgj
    by_cases hij : i = j
    · rw [if_pos hij] at hgj
      injection hgj with hgj
      subst hgj
      exact hes hclj
    · rw [if_neg hij] at hgj
      exact he j inst' hgj hclj
  · intro c hc inst' hgj
    rw [putInst_conts] at hc
    rw [getInst_putInst] at hgj
    by_cases hic : i = c.inst
    · rw [if_pos hic] at hgj
      injection hgj with hgj
      subst hgj
      obtain ⟨h1, h2⟩ := hb c hc inst (by rw [← hic]; exact hg)
      constructor
      · exact Nat.le_trans h1 hlat
      · intro hct
        rcases hcl2 hct with h3 | h3
        · exact Nat.lt_of_le_of_lt h1 h3
        · exact Nat.lt_of_lt_of_le (h2 h3) hlat
    · rw [if_neg hic] at hgj
      exact hb c hc inst' hgj
  · intro c hc
    rw [putInst_conts] at hc
    rw [getInst_putInst]
    by_cases hic : i = c.inst
    · rw [if_pos hic]
      rfl
    · rw [if_neg hic]
      exact ho c hc
  · intro j inst' hgj hng
    rw [getInst_putInst] at hgj
    by_cases hij : i = j
    · rw [if_pos hij] at hgj
      injection hgj with hgj
      subst hgj
      rcases hgh with h1 | ⟨h1, h2, h34⟩
      · rw [h1] at hng
        cases hng
      · rw [h1] at hng
        obtain ⟨d1, d2, d3⟩ := hgi i inst hg hng
        rcases h34 with ⟨h3, h4⟩ | ⟨h3, h4⟩
        · rw [h2, h3, h4]
          exact ⟨d1, d2, d3⟩
        · rw [h2, h3, h4]
          exact ⟨d1, rfl, rfl⟩
    · rw [if_neg hij] at hgj
      exact hgi j inst' hgj hng

theorem sysInv_asetCache (s : Sys) (k : String) (entry : CacheEntry) (hwf : entryWF entry)
    (h : SysInv s) : SysInv { s with cache := aset s.cache k entry } := by
  obtain ⟨hw, he, hb, ho, hgi⟩ := h
  refine ⟨?_, he, hb, ho, hgi⟩
  intro k2 e2 he2
  dsimp only at he2
  rw [alookup_aset] at he2
  by_cases hk : k = k2
  · rw [if_pos hk] at he2
    injection he2 with he2
    rw [← he2]
    exact hwf
  · rw [if_neg hk] at he2
    exact hw k2 e2 he2

theorem sysInv_adelCache (s : Sys) (k : String) (h : SysInv s) :
    SysInv { s with cache := adel s.cache k } := by
  obtain ⟨hw, he, hb, ho, hgi⟩ := h
  refine ⟨?_, he, hb, ho, hgi⟩
  intro k2 e2 he2
  dsimp only at he2
  rw [alookup_adel] at he2
  by_cases hk : k = k2
  · rw [if_pos hk] at he2
    cases he2
  · rw [if_neg hk] at he2
    exact hw k2 e2 he2

theorem sysInv_contAppend (s : Sys) (c0 : Await) (inst : Instance)
    (hg : getInst s c0.inst = some inst)
    (h1 : c0.reqId ≤ inst.latestRequestId)
    (h2 : inst.cleanupCalled = true → c0.reqId < inst.latestRequestId)
    (h : SysInv s) : SysInv { s with conts := s.conts ++ [c0] } := by
  obtain ⟨hw, he, hb, ho, hgi⟩ := h
  refine ⟨hw, he, ?_, ?_, hgi⟩
  · intro c hc inst' hgj
    dsimp only at hc
    rw [List.mem_append, List.mem_singleton] at hc
    rcases hc with hc | rfl
    · exact hb c hc inst' hgj
    · have hgj2 : getInst s c.inst = some inst' := hgj
      rw [hg] at hgj2
      injection hgj2 with hgj2
      rw [← hgj2]
      exact ⟨h1, h2⟩
  · intro c hc
    dsimp only at hc
    rw [List.mem_append, List.mem_singleton] at hc
    rcases hc with hc | rfl
    · exact ho c hc
    · show (getInst s c.inst).isSome = true
      rw [hg]
      rfl

theorem sysInv_subscribe (k : String) (i : Nat) (s : Sys) (h : SysInv s) :
    SysInv (subscribeCb k i s) := by
  unfold subscribeCb
  repeat' split
  all_goals exact h

theorem sysInv_unsubscribe (k : String) (i : Nat) (s : Sys) (h : SysInv s) :
    SysInv (unsubscribeCb k i s) := by
  unfold unsubscribeCb
  split
  · exact h
  · dsimp only
    split
    · exact h
    · exact h

theorem sysInv_newInst (s : Sys) (i : Nat) (key : Option String) (h : SysInv s)
    (hgnone : getInst s i = none) :
    SysInv (putInst s i { initialInstance key with latestRequestId := 1,
                                                   lastStartEpoch := 1 }) := by
  obtain ⟨hw, he, hb, ho, hgi⟩ := h
  refine ⟨?_, ?_, ?_, ?_, ?_⟩
  · exact cacheWF_of_eq s _ (putInst_cache s i _) hw
  · intro j inst' hgj hclj
    rw [getInst_putInst] at hgj
    by_cases hij : i = j
    · rw [if_pos hij] at hgj
      injection hgj with hgj
      rw [← hgj]
    · rw [if_neg hij] at hgj
      exact he j inst' hgj hclj
  · intro c hc inst' hgj
    rw [putInst_conts] at hc
    have hcown := ho c hc
    by_cases hic : i = c.inst
    · rw [← hic, hgnone] at hcown
      cases hcown
    · rw [getInst_putInst, if_neg hic] at hgj
      exact hb c hc inst' hgj
  · intro c hc
    rw [putInst_conts] at hc
    rw [getInst_putInst]
    by_cases hic : i = c.inst
    · rw [if_pos hic]
      rfl
    · rw [if_neg hic]
      exact ho c hc
  · intro j inst' hgj hng
    rw [getInst_putInst] at hgj
    by_cases hij : i = j
    · rw [if_pos hij] at hgj
      injection hgj with hgj
      rw [← hgj]
      exact ⟨rfl, rfl, rfl⟩
    · rw [if_neg hij] at hgj
      exact hgi j inst' hgj hng

theorem fetchInvoke_inv (i : Nat) (key : Option String) (r : Nat) (s : Sys) (inst : Instance)
    (hg : getInst s i = some inst) (hr : inst.latestRequestId = r)
    (hcl : inst.cleanupCalled = false) (h : SysInv s) :
    SysInv (fetchInvoke i key r s) := by
  unfold fetchInvoke
  rw [hg]
  dsimp only
  cases key with
  | some k =>
    have h1 : SysInv { s with nextPromise := s.nextPromise + 1,
                              producerCalls := s.producerCalls + 1 } := h
    have h3 : SysInv { s with cache := aset s.cache k (pendingEntry s.nextPromise),
                              nextPromise := s.nextPromise + 1,
                              producerCalls := s.producerCalls + 1 } :=
      sysInv_asetCache _ k (pendingEntry s.nextPromise) (entryWF_pendingEntry _) h1
    have hg3 : getInst { s with cache := aset s.cache k (pendingEntry s.nextPromise),
                                nextPromise := s.nextPromise + 1,
                                producerCalls := s.producerCalls + 1 } i = some inst := hg
    have h4 := putInst_inv_upd _ i inst { inst with ref := pendingEntry s.nextPromise }
      hg3 rfl (Or.inr (Or.inl ⟨rfl, rfl, rfl, rfl⟩)) h3
    exact sysInv_contAppend _ ⟨s.nextPromise, i, some k, r, ContKind.fetchCont⟩
      { inst with ref := pendingEntry s.nextPromise } (getInst_putInst_same _ _ _)
      (Nat.le_of_eq hr.symm)
      (fun hct => by
        have hct2 : inst.cleanupCalled = true := hct
        rw [hcl] at hct2
        exact Bool.noConfusion hct2) h4
  | none =>
    have h1 : SysInv { s with nextPromise := s.nextPromise + 1,
                              producerCalls := s.producerCalls + 1 } := h
    have hg1 : getInst { s with nextPromise := s.nextPromise + 1,
                                producerCalls := s.producerCalls + 1 } i = some inst := hg
    exact sysInv_contAppend _ ⟨s.nextPromise, i, none, r, ContKind.fetchCont⟩ inst hg1
      (Nat.le_of_eq hr.symm)
      (fun hct => by rw [hcl] at hct; exact Bool.noConfusion hct) h1

theorem fetchDataStep_inv (i : Nat) (r : Nat) (s : Sys) (inst : Instance)
    (hg : getInst s i = some inst) (hr : inst.latestRequestId = r)
    (hcl : inst.cleanupCalled = false) (h : SysInv s) : SysInv (fetchDataStep i r s) := by
  unfold fetchDataStep
  rw [hg]
  dsimp only
  have h1 : SysInv (putInst s i { inst with isLoading := true, error := none }) :=
    putInst_inv_upd s i inst _ hg rfl (Or.inr (Or.inr ⟨rfl, rfl, rfl, rfl⟩)) h
  have hg1 : getInst (putInst s i { inst with isLoading := true, error := none }) i =
      some { inst with isLoading := true, error := none } := getInst_putInst_same _ _ _
  split
  next k hkeq =>
    split
    next cached hcach =>
      split
      · exact h1
      · split
        · exact putInst_inv_upd _ i { inst with isLoading := true, error := none } _
            hg1 rfl (Or.inl rfl) h1
        · exact fetchInvoke_inv i (some k) r _ { inst with isLoading := true, error := none }
            hg1 hr hcl h1
    next hcach =>
      exact fetchInvoke_inv i (some k) r _ { inst with isLoading := true, error := none }
        hg1 hr hcl h1
  next hkeq =>
    exact fetchInvoke_inv i none r _ { inst with isLoading := true, error := none }
      hg1 hr hcl h1

theorem mount_inv (i : Nat) (key : Option String) (s : Sys) (h : SysInv s) :
    SysInv (mountStep i key s) := by
  unfold mountStep
  split
  · exact h
  next hgnone =>
    dsimp only
    have h1 : SysInv (putInst s i
        { initialInstance key with latestRequestId := 1, lastStartEpoch := 1 }) :=
      sysInv_newInst s i key h hgnone
    have hg1 := getInst_putInst_same s i
      { initialInstance key with latestRequestId := 1, lastStartEpoch := 1 }
    cases key with
    | some k =>
      dsimp only
      refine sysInv_subscribe k i _ ?_
      split
      next cached hcach =>
        split
        · exact putInst_inv_upd _ i _ _ hg1 rfl (Or.inl rfl) h1
        · split
          · split
            next p hp =>
              refine sysInv_contAppend
                (putInst (putInst s i { initialInstance (some k) with latestRequestId := 1, lastStartEpoch := 1 }) i { { initialInstance (some k) with latestRequestId := 1, lastStartEpoch := 1 } with isLoading := true })
                ⟨p, i, some k, 1, ContKind.attachCont⟩
                { { initialInstance (some k) with latestRequestId := 1, lastStartEpoch := 1 } with isLoading := true }
                (getInst_putInst_same _ i _) (Nat.le_refl 1)
                (fun hf => Bool.noConfusion hf) ?_
              exact putInst_inv_upd _ i _ _ hg1 rfl
                (Or.inr (Or.inr ⟨rfl, rfl, rfl, rfl⟩)) h1
            next hp => exact h1
          · exact fetchDataStep_inv i 1 _ _ hg1 rfl rfl h1
      next hcach =>
        exact fetchDataStep_inv i 1 _ _ hg1 rfl rfl h1
    | none =>
      dsimp only
      exact fetchDataStep_inv i 1 _ _ hg1 rfl rfl h1

theorem unmount_inv (i : Nat) (s : Sys) (h : SysInv s) : SysInv (unmountStep i s) := by
  unfold unmountStep
  split
  · exact h
  next inst hg =>
    split
    · exact h
    next hcl =>
      dsimp only
      have h1 := putInst_inv_gen s i inst
        { inst with cleanupCalled := true, latestRequestId := inst.latestRequestId + 1 }
        hg h rfl (Nat.le_succ _) (fun _ => Or.inl (Nat.lt_succ_self _))
        (fun hf => Bool.noConfusion hf) (Or.inr ⟨rfl, rfl, Or.inl ⟨rfl, rfl⟩⟩)
      split
      · exact sysInv_unsubscribe _ _ _ h1
      · exact h1

theorem refetch_inv (i : Nat) (s : Sys) (h : SysInv s) : SysInv (refetchStep i s) := by
  unfold refetchStep
  split
  · exact h
  next inst hg =>
    split
    · exact h
    next hcl =>
      dsimp only
      have hclf : inst.cleanupCalled = false := by
        cases hb2 : inst.cleanupCalled
        · rfl
        · exact absurd hb2 hcl
      have h1 := putInst_inv_gen s i inst
        { inst with latestRequestId := inst.latestRequestId + 1, lastStartEpoch := inst.latestRequestId + 1 }
        hg h rfl (Nat.le_succ _) (fun hf => Or.inr hf) (fun _ => rfl)
        (Or.inr ⟨rfl, rfl, Or.inl ⟨rfl, rfl⟩⟩)
      split
      next k hk =>
        refine fetchDataStep_inv i (inst.latestRequestId + 1) _
          { { inst with latestRequestId := inst.latestRequestId + 1, lastStartEpoch := inst.latestRequestId + 1 } with ref := idleEntry }
          ?_ rfl hclf ?_
        · exact getInst_putInst_same _ i
            { { inst with latestRequestId := inst.latestRequestId + 1, lastStartEpoch := inst.latestRequestId + 1 } with ref := idleEntry }
        · refine putInst_inv_upd _ i
            { inst with latestRequestId := inst.latestRequestId + 1, lastStartEpoch := inst.latestRequestId + 1 }
            { { inst with latestRequestId := inst.latestRequestId + 1, lastStartEpoch := inst.latestRequestId + 1 } with ref := idleEntry }
            ?_ rfl (Or.inr (Or.inl ⟨rfl, rfl, rfl, rfl⟩)) ?_
          · exact getInst_putInst_same s i
              { inst with latestRequestId := inst.latestRequestId + 1, lastStartEpoch := inst.latestRequestId + 1 }
          · exact sysInv_adelCache _ k h1
      next hk =>
        exact fetchDataStep_inv i (inst.latestRequestId + 1) _ _
          (getInst_putInst_same s i _) rfl hclf h1

theorem isSome_of_map_admin (o1 o2 : Option Instance)
    (h : o1.map instAdmin = o2.map instAdmin) : o1.isSome = o2.isSome := by
  cases o1 <;> cases o2 <;> simp at h ⊢

theorem runFold_cacheWF (out : Outcome) (l : List Await) (t : Sys) (hw : CacheWF t) :
    CacheWF (List.foldl (fun acc c => runCont c out acc) t l) :=
  foldl_preserve (fun acc c => runCont c out acc) CacheWF
    (fun u c hu => runCont_cacheWF c out u hu) l t hw

theorem runFold_ghost (out : Outcome) (l : List Await) (t : Sys) (hg : GhostInit t) :
    GhostInit (List.foldl (fun acc c => runCont c out acc) t l) :=
  foldl_preserve (fun acc c => runCont c out acc) GhostInit
    (fun u c hu => runCont_ghost c out u hu) l t hg

theorem runFold_conts (out : Outcome) (l : List Await) (t : Sys) :
    (List.foldl (fun acc c => runCont c out acc) t l).conts = t.conts := by
  refine foldl_preserve (fun acc c => runCont c out acc)
    (fun u => u.conts = t.conts) (fun u c hu => ?_) l t rfl
  dsimp only
  rw [runCont_conts_eq]
  exact hu

theorem runFold_admin (out : Outcome) (l : List Await) (t : Sys) (j : Nat) :
    (getInst (List.foldl (fun acc c => runCont c out acc) t l) j).map instAdmin =
      (getInst t j).map instAdmin := by
  refine foldl_preserve (fun acc c => runCont c out acc)
    (fun u => (getInst u j).map instAdmin = (getInst t j).map instAdmin)
    (fun u c hu => ?_) l t rfl
  dsimp only
  rw [runCont_admin]
  exact hu

theorem settle_inv (p : Nat) (out : Outcome) (s : Sys) (h : SysInv s) :
    SysInv (settleStep p out s) := by
  obtain ⟨hw, he, hb, ho, hgi⟩ := h
  unfold settleStep
  dsimp only
  have hw1 : CacheWF { s with conts := s.conts.filter (fun c => ¬ c.promise = p) } := hw
  have hg1 : GhostInit { s with conts := s.conts.filter (fun c => ¬ c.promise = p) } := hgi
  refine ⟨?_, ?_, ?_, ?_, ?_⟩
  · exact runFold_cacheWF out _ _ hw1
  · intro j inst' hgj hclj
    obtain ⟨inst2, hg2, hkey, hlat, hcl2, hls2⟩ :=
      admin_eq_of_map _ _ (runFold_admin out _ _ j) inst' hgj
    have hg2s : getInst s j = some inst2 := hg2
    rw [hls2, hlat]
    refine he j inst2 hg2s ?_
    rw [← hcl2]
    exact hclj
  · intro c hc inst' hgj
    rw [runFold_conts] at hc
    have hc2 : c ∈ s.conts := List.mem_of_mem_filter hc
    obtain ⟨inst2, hg2, hkey, hlat, hcl2, hls2⟩ :=
      admin_eq_of_map _ _ (runFold_admin out _ _ c.inst) inst' hgj
    have hg2s : getInst s c.inst = some inst2 := hg2
    rw [hlat, hcl2]
    exact hb c hc2 inst2 hg2s
  · intro c hc
    rw [runFold_conts] at hc
    have hc2 : c ∈ s.conts := List.mem_of_mem_filter hc
    have hiso := isSome_of_map_admin _ _ (runFold_admin out
      (s.conts.filter (fun c => c.promise = p))
      { s with conts := s.conts.filter (fun c => ¬ c.promise = p) } c.inst)
    rw [hiso]
    exact ho c hc2
  · exact runFold_ghost out _ _ hg1

theorem sysInv_init : SysInv initSys := by
  refine ⟨?_, ?_, ?_, ?_, ?_⟩
  · intro k e he
    simp [initSys, alookup] at he
  · intro i inst hg
    simp [initSys, getInst, alookup] at hg
  · intro c hc
    simp [initSys] at hc
  · intro c hc
    simp [initSys] at hc
  · intro i inst hg
    simp [initSys, getInst, alookup] at hg

theorem step_inv (s : Sys) (e : Event) (h : SysInv s) : SysInv (step s e) := by
  cases e with
  | mount i key => exact mount_inv i key s h
  | refetch i => exact refetch_inv i s h
  | unmount i => exact unmount_inv i s h
  | settle p out => exact settle_inv p out s h

theorem inv_runTrace (es : List Event) : SysInv (runTrace es) := by
  unfold runTrace
  exact foldl_preserve step SysInv (fun t e ht => step_inv t e ht) es initSys sysInv_init

theorem inv_reachable (s : Sys) (h : Reachable s) : SysInv s := by
  obtain ⟨es, hes⟩ := h
  rw [← hes]
  exact inv_runTrace es

/-! ## Claim-specific helper lemmas -/

theorem toError_jerror (v : JVal) : ∃ m, toError v = JVal.jerror m := by
  cases v with
  | jnull => exact ⟨jsString JVal.jnull, rfl⟩
  | jstr s => exact ⟨jsString (JVal.jstr s), rfl⟩
  | jerror m => exact ⟨m, rfl⟩

theorem handle_keeps_rejected (k : String) (a : Nat) (u : Sys) (i0 : Nat) (E : JVal) (L : Nat)
    (h : alookup u.cache k = some (rejectedEntry E) ∧
      ∃ inst4, getInst u i0 = some inst4 ∧ inst4.error = some E ∧
        inst4.latestRequestId = L) :
    alookup (handleCacheUpdate k a u).cache k = some (rejectedEntry E) ∧
    ∃ inst5, getInst (handleCacheUpdate k a u) i0 = some inst5 ∧ inst5.error = some E ∧
      inst5.latestRequestId = L := by
  obtain ⟨hcache, inst4, hg4, herr4, hlat4⟩ := h
  refine ⟨by rw [handle_cache_eq]; exact hcache, ?_⟩
  by_cases hai : a = i0
  · subst hai
    rcases handle_cases k a u with heq | ⟨inst3, cached, hg3, hc3, hk3, ⟨hs, heq⟩ | ⟨hs, heq⟩⟩
    · rw [heq]
      exact ⟨inst4, hg4, herr4, hlat4⟩
    · rw [hcache] at hk3
      injection hk3 with hk3
      rw [← hk3] at hs
      exact absurd hs (by simp [rejectedEntry])
    · rw [heq, getInst_putInst_same]
      rw [hg4] at hg3
      injection hg3 with hg3
      subst hg3
      rw [hcache] at hk3
      injection hk3 with hk3
      refine ⟨_, rfl, ?_, hlat4⟩
      rw [← hk3]
      rfl
  · rw [handle_getInst_other k a i0 u hai]
    exact ⟨inst4, hg4, herr4, hlat4⟩

theorem notify_keeps_rejected (k : String) (t : Sys) (i0 : Nat) (E : JVal) (L : Nat)
    (hcache : alookup t.cache k = some (rejectedEntry E))
    (hinst : ∃ inst4, getInst t i0 = some inst4 ∧ inst4.error = some E ∧
      inst4.latestRequestId = L) :
    alookup (notifySubscribers k t).cache k = some (rejectedEntry E) ∧
    ∃ inst5, getInst (notifySubscribers k t) i0 = some inst5 ∧ inst5.error = some E ∧
      inst5.latestRequestId = L := by
  unfold notifySubscribers
  split
  · exact ⟨hcache, hinst⟩
  next ids hid =>
    refine foldl_preserve (fun acc j => handleCacheUpdate k j acc)
      (fun u => alookup u.cache k = some (rejectedEntry E) ∧
        ∃ inst5, getInst u i0 = some inst5 ∧ inst5.error = some E ∧
          inst5.latestRequestId = L)
      (fun u a hu => handle_keeps_rejected k a u i0 E L hu) ids t ⟨hcache, hinst⟩

theorem fetchInvoke_keyless (i r : Nat) (s : Sys) (inst : Instance)
    (hg : getInst s i = some inst) :
    (fetchInvoke i none r s).cache = s.cache ∧ (fetchInvoke i none r s).subs = s.subs ∧
    (fetchInvoke i none r s).producerCalls = s.producerCalls + 1 := by
  unfold fetchInvoke
  rw [hg]
  exact ⟨rfl, rfl, rfl⟩

theorem fetchDataStep_keyless (i r : Nat) (s : Sys) (inst : Instance)
    (hg : getInst s i = some inst) (hk : inst.key = none) :
    (fetchDataStep i r s).cache = s.cache ∧ (fetchDataStep i r s).subs = s.subs ∧
    (fetchDataStep i r s).producerCalls = s.producerCalls + 1 := by
  unfold fetchDataStep
  rw [hg]
  dsimp only
  rw [hk]
  dsimp only
  obtain ⟨h1, h2, h3⟩ := fetchInvoke_keyless i r
    (putInst s i ⟨none, inst.data, true, none, inst.latestRequestId, inst.ref, inst.cleanupCalled, inst.lastStartEpoch, inst.ghostWrote⟩)
    ⟨none, inst.data, true, none, inst.latestRequestId, inst.ref, inst.cleanupCalled, inst.lastStartEpoch, inst.ghostWrote⟩
    (getInst_putInst_same _ _ _)
  exact ⟨by rw [h1]; rfl, by rw [h2]; rfl, by rw [h3]; rfl⟩

theorem mount_keyless (s : Sys) (i : Nat) (hgnone : getInst s i = none) :
    (mountStep i none s).cache = s.cache ∧ (mountStep i none s).subs = s.subs ∧
    (mountStep i none s).producerCalls = s.producerCalls + 1 := by
  unfold mountStep
  rw [hgnone]
  dsimp only
  obtain ⟨h1, h2, h3⟩ := fetchDataStep_keyless i 1
    (putInst s i { initialInstance none with latestRequestId := 1, lastStartEpoch := 1 })
    { initialInstance none with latestRequestId := 1, lastStartEpoch := 1 }
    (getInst_putInst_same _ _ _) rfl
  exact ⟨h1, h2, h3⟩

theorem refetch_keyless (s : Sys) (i : Nat) (inst : Instance)
    (hg : getInst s i = some inst) (hcl : inst.cleanupCalled = false)
    (hk : inst.key = none) :
    (refetchStep i s).cache = s.cache ∧ (refetchStep i s).subs = s.subs ∧
    (refetchStep i s).producerCalls = s.producerCalls + 1 := by
  unfold refetchStep
  rw [hg]
  dsimp only
  rw [if_neg (by simp [hcl]), hk]
  dsimp only
  obtain ⟨h1, h2, h3⟩ := fetchDataStep_keyless i (inst.latestRequestId + 1)
    (putInst s i ⟨none, inst.data, inst.isLoading, inst.error, inst.latestRequestId + 1, inst.ref, inst.cleanupCalled, inst.latestRequestId + 1, inst.ghostWrote⟩)
    ⟨none, inst.data, inst.isLoading, inst.error, inst.latestRequestId + 1, inst.ref, inst.cleanupCalled, inst.latestRequestId + 1, inst.ghostWrote⟩
    (getInst_putInst_same _ _ _) rfl
  exact ⟨h1, h2, h3⟩

theorem unmount_keyless (s : Sys) (i : Nat) (inst : Instance)
    (hg : getInst s i = some inst) (hk : inst.key = none) :
    (unmountStep i s).cache = s.cache ∧ (unmountStep i s).subs = s.subs := by
  unfold unmountStep
  rw [hg]
  dsimp only
  split
  · exact ⟨rfl, rfl⟩
  · rw [hk]
    exact ⟨rfl, rfl⟩

theorem fetchInvoke_keyed (i r : Nat) (s : Sys) (inst : Instance) (k : String)
    (hg : getInst s i = some inst) :
    (fetchInvoke i (some k) r s).producerCalls = s.producerCalls + 1 ∧
    (fetchInvoke i (some k) r s).cache = aset s.cache k (pendingEntry s.nextPromise) := by
  unfold fetchInvoke
  rw [hg]
  exact ⟨rfl, rfl⟩

theorem fetchDataStep_invoke_keyed (i r : Nat) (s : Sys) (inst : Instance) (k : String)
    (hg : getInst s i = some inst) (hk : inst.key = some k)
    (hnone : alookup s.cache k = none) :
    (fetchDataStep i r s).producerCalls = s.producerCalls + 1 ∧
    alookup (fetchDataStep i r s).cache k = some (pendingEntry s.nextPromise) := by
  unfold fetchDataStep
  rw [hg]
  dsimp only
  rw [hk]
  dsimp only
  rw [putInst_cache, hnone]
  dsimp only
  obtain ⟨h1, h2⟩ := fetchInvoke_keyed i r
    (putInst s i ⟨some k, inst.data, true, none, inst.latestRequestId, inst.ref, inst.cleanupCalled, inst.lastStartEpoch, inst.ghostWrote⟩)
    ⟨some k, inst.data, true, none, inst.latestRequestId, inst.ref, inst.cleanupCalled, inst.lastStartEpoch, inst.ghostWrote⟩
    k (getInst_putInst_same _ _ _)
  refine ⟨h1, ?_⟩
  rw [h2, putInst_cache, alookup_aset, if_pos rfl]
  rfl

theorem publish_rejected_error (i : Nat) (k : String) (E : JVal) (t : Sys)
    (inst4 : Instance) (hg : getInst t i = some inst4) (herr : inst4.error = some E)
    (L : Nat) (hlat : inst4.latestRequestId = L) :
    ∃ inst5, getInst (publishSettle i k (rejectedEntry E) t) i = some inst5 ∧
      inst5.error = some E ∧ inst5.latestRequestId = L := by
  unfold publishSettle
  dsimp only
  rw [show getInst { t with cache := aset t.cache k (rejectedEntry E) } i = some inst4 from hg]
  dsimp only
  have hcfact : alookup (putInst { t with cache := aset t.cache k (rejectedEntry E) } i
      { inst4 with ref := rejectedEntry E }).cache k = some (rejectedEntry E) := by
    rw [putInst_cache]
    dsimp only
    rw [alookup_aset, if_pos rfl]
  have hifact : ∃ inst4b, getInst (putInst { t with cache := aset t.cache k (rejectedEntry E) } i
      { inst4 with ref := rejectedEntry E }) i = some inst4b ∧ inst4b.error = some E ∧
      inst4b.latestRequestId = L :=
    ⟨_, getInst_putInst_same _ _ _, herr, hlat⟩
  obtain ⟨hc5, hi5⟩ := notify_keeps_rejected k _ i E L hcfact hifact
  exact hi5

/-! ## Claim theorems -/

/-- C1: the claim says that for two consumer instances sharing cache key "k"
while a fetch for "k" is in flight, the producer is invoked at most once
until settlement.  The code violates this (and its own test, which expects
`toHaveBeenCalledTimes(1)` in this exact scenario): instance 1 mounts while
instance 0's fetch is pending, its dedup check on line 100/190 compares the
cached promise with its own `cacheEntryStatus` ref (initially `null`), the
check fails, and the producer is invoked a second time.  This theorem
evaluates the model at that failing input: the producer invocation count is
2, not 1. -/
theorem C1_producer_invoked_twice :
    (runTrace [Event.mount 0 (some "k"), Event.mount 1 (some "k")]).producerCalls = 2 := by
  decide

/-- C2 (counterexample): the claim says the exposed value after any
settlement is the result of the producer invocation with the highest epoch
among those settled so far.  Trace: instance 0 starts epoch 1 (promise 0),
refetches (epoch 2, promise 1), then promise 0 settles with "r1".  Epoch 1
is the highest epoch settled so far and its result is "r1", yet the exposed
`data` is still `null` (the settlement was discarded because epoch 1 is
below the current counter 2): the claim as stated is false here. -/
theorem C2_counterexample :
    getInst (runTrace [Event.mount 0 none, Event.refetch 0,
        Event.settle 0 (Outcome.resolve (JVal.jstr "r1"))]) 0 =
      some ⟨none, none, true, none, 2, idleEntry, false, 2, false⟩ := by
  decide

/-- C2 (amended): a settlement whose captured epoch differs from the
instance's current epoch counter at settlement time changes nothing at all:
the result is never written to the exposed state (the race-suppression
gate on lines 132/149/167 and 196/201/207).  The exposed value therefore
reflects the latest gate-passing settlement, which need not be the highest
epoch settled so far. -/
theorem C2_stale_settlement_never_written : ∀ (s : Sys) (c : Await) (out : Outcome)
    (inst : Instance), getInst s c.inst = some inst →
    ¬ c.reqId = inst.latestRequestId → runCont c out s = s :=
  fun s c out inst hg hne => runCont_stale c out s inst hg hne

theorem C2_stale_settlement_never_written_witness :
    runCont ⟨0, 0, none, 1, ContKind.fetchCont⟩ (Outcome.resolve (JVal.jstr "late"))
      (runTrace [Event.mount 0 none, Event.refetch 0]) =
    runTrace [Event.mount 0 none, Event.refetch 0] :=
  C2_stale_settlement_never_written _ _ _
    ⟨none, none, true, none, 2, idleEntry, false, 2, false⟩ (by decide) (by decide)

/-- C3 (counterexample): the claim says exactly one of
{pendingHandle, value, failure} is populated, with pendingHandle populated
iff the status is Pending.  The resolved entry written on line 137 keeps
`promise: requestPromise`: after a keyed fetch resolves, the stored entry
has status Resolved with BOTH the promise handle and the value populated. -/
theorem C3_counterexample :
    alookup (runTrace [Event.mount 0 (some "k"),
        Event.settle 0 (Outcome.resolve (JVal.jstr "v"))]).cache "k" =
      some (resolvedEntry 0 (JVal.jstr "v")) ∧
    (resolvedEntry 0 (JVal.jstr "v")).status = Status.resolved ∧
    (resolvedEntry 0 (JVal.jstr "v")).promise ≠ none := by
  refine ⟨by decide, rfl, by decide⟩

/-- C3 (amended): every entry ever stored in the shared cache satisfies the
population discipline the code actually maintains (`entryWF`): a Pending
entry carries exactly the promise handle; a Resolved entry carries the
promise handle AND the value (the handle is retained, line 137); a Rejected
entry carries exactly the failure (the handle is cleared, line 155); an
Idle entry is never stored. -/
theorem C3_stored_entry_population : ∀ s, Reachable s → ∀ k e,
    alookup s.cache k = some e → entryWF e :=
  fun s hs => (inv_reachable s hs).1

theorem C3_stored_entry_population_witness : entryWF (pendingEntry 0) :=
  C3_stored_entry_population (runTrace [Event.mount 0 (some "k")])
    ⟨[Event.mount 0 (some "k")], rfl⟩ "k" (pendingEntry 0) (by decide)

/-- C4 (counterexample): the claim says a throwing callback does not
prevent the remaining callbacks from running.  `notifySubscribers`
(line 27) iterates the subscriber set with a bare `Set.forEach`, which does
not isolate exceptions: with two registered callbacks where the first logs
1 and throws, the second (which would log 2) never runs and the exception
propagates out of `notify`. -/
theorem C4_counterexample :
    setForEach [fun l => (l ++ [1], some "boom"),
                fun l => (l ++ [2], (none : Option String))] ([] : List Nat) =
      ([1], some "boom") := rfl

/-- C4 (amended): `notify` runs the registered callbacks in iteration order
only up to the first throw; when no callback throws, every callback runs
exactly once, in order. -/
theorem C4_forEach_no_throw_runs_all : ∀ {σ ε : Type} (cbs : List (σ → σ × Option ε))
    (s : σ), (∀ cb, cb ∈ cbs → ∀ t, (cb t).2 = none) →
    setForEach cbs s = (cbs.foldl (fun t cb => (cb t).1) s, none) := by
  intro σ ε cbs
  induction cbs with
  | nil => intro s h; rfl
  | cons cb rest ih =>
    intro s h
    have hcb : (cb s).2 = none := h cb (List.mem_cons_self cb rest) s
    cases hcs : cb s with
    | mk s1 o =>
      rw [hcs] at hcb
      dsimp at hcb
      subst hcb
      unfold setForEach
      rw [hcs]
      dsimp only
      rw [ih s1 (fun cb2 h2 t => h cb2 (List.mem_cons_of_mem cb h2) t)]
      dsimp only [List.foldl]
      rw [hcs]

theorem C4_forEach_no_throw_runs_all_witness :
    setForEach [fun l => (l ++ [5], (none : Option String))] ([] : List Nat) =
      ([5], none) :=
  C4_forEach_no_throw_runs_all [fun l => (l ++ [5], none)] []
    (fun cb hcb t => by
      rw [List.mem_singleton] at hcb
      subst hcb
      rfl)

/-- C5: the `handleCacheUpdate` callback mirrors a Resolved/Rejected store
snapshot into the instance's exposed state only when the instance is not
stale.  First part: on every reachable state, a live (not torn down)
instance always satisfies the epoch gate — the request id captured at its
most recent fetch start equals its current `latestRequestId` counter (the
counter only advances together with a fresh capture, or at teardown).
Second part: for a torn-down instance the callback is a no-op (the
`cleanupCalled` guard on line 226), so no stale mirror ever occurs. -/
theorem C5_mirror_epoch_gate :
    (∀ s, Reachable s → ∀ i inst, getInst s i = some inst →
      inst.cleanupCalled = false → inst.lastStartEpoch = inst.latestRequestId) ∧
    (∀ (k : String) (i : Nat) (s : Sys) (inst : Instance), getInst s i = some inst →
      inst.cleanupCalled = true → handleCacheUpdate k i s = s) := by
  constructor
  · exact fun s hs => (inv_reachable s hs).2.1
  · intro k i s inst hg hc
    unfold handleCacheUpdate
    rw [hg]
    dsimp only
    rw [if_pos hc]

theorem C5_mirror_epoch_gate_witness :
    (⟨some "k", none, true, none, 1, pendingEntry 0, false, 1, false⟩ :
        Instance).lastStartEpoch =
      (⟨some "k", none, true, none, 1, pendingEntry 0, false, 1, false⟩ :
        Instance).latestRequestId ∧
    handleCacheUpdate "k" 0 (runTrace [Event.mount 0 (some "k"), Event.unmount 0]) =
      runTrace [Event.mount 0 (some "k"), Event.unmount 0] :=
  ⟨C5_mirror_epoch_gate.1 (runTrace [Event.mount 0 (some "k")])
      ⟨[Event.mount 0 (some "k")], rfl⟩ 0
      ⟨some "k", none, true, none, 1, pendingEntry 0, false, 1, false⟩ (by decide) rfl,
   C5_mirror_epoch_gate.2 "k" 0 (runTrace [Event.mount 0 (some "k"), Event.unmount 0])
      ⟨some "k", none, true, none, 2, pendingEntry 0, true, 1, false⟩ (by decide) rfl⟩

/-- C6: `refetch()` (lines 260-274) first removes the store entry for the
instance's key (when keyed) and then triggers exactly one new producer
invocation, even when the previous entry for that key had status Resolved:
after the `Map.delete`, the de-duplication and cached-value checks in
`fetchData` find no entry, so the producer is always invoked, the
invocation counter rises by exactly one, and a fresh Pending entry for the
new promise replaces whatever was stored. -/
theorem C6_refetch_always_invokes : ∀ (s : Sys) (i : Nat) (inst : Instance),
    getInst s i = some inst → inst.cleanupCalled = false →
    (refetchStep i s).producerCalls = s.producerCalls + 1 ∧
    (∀ k, inst.key = some k →
      alookup (refetchStep i s).cache k = some (pendingEntry s.nextPromise)) := by
  intro s i inst hg hcl
  unfold refetchStep
  rw [hg]
  dsimp only
  rw [if_neg (by simp [hcl])]
  cases hk : inst.key with
  | none =>
    dsimp only
    obtain ⟨h1, h2, h3⟩ := fetchDataStep_keyless i (inst.latestRequestId + 1)
      (putInst s i ⟨none, inst.data, inst.isLoading, inst.error, inst.latestRequestId + 1, inst.ref, inst.cleanupCalled, inst.latestRequestId + 1, inst.ghostWrote⟩)
      ⟨none, inst.data, inst.isLoading, inst.error, inst.latestRequestId + 1, inst.ref, inst.cleanupCalled, inst.latestRequestId + 1, inst.ghostWrote⟩
      (getInst_putInst_same _ _ _) rfl
    refine ⟨h3, ?_⟩
    intro k hkk
    cases hkk
  | some k0 =>
    dsimp only
    have hnone : alookup (putInst { putInst s i (⟨some k0, inst.data, inst.isLoading, inst.error, inst.latestRequestId + 1, inst.ref, inst.cleanupCalled, inst.latestRequestId + 1, inst.ghostWrote⟩ : Instance) with cache := adel (putInst s i (⟨some k0, inst.data, inst.isLoading, inst.error, inst.latestRequestId + 1, inst.ref, inst.cleanupCalled, inst.latestRequestId + 1, inst.ghostWrote⟩ : Instance)).cache k0 } i (⟨some k0, inst.data, inst.isLoading, inst.error, inst.latestRequestId + 1, idleEntry, inst.cleanupCalled, inst.latestRequestId + 1, inst.ghostWrote⟩ : Instance)).cache k0 = none := by
      rw [putInst_cache]
      dsimp only
      rw [alookup_adel, if_pos rfl]
    obtain ⟨h1, h2⟩ := fetchDataStep_invoke_keyed i (inst.latestRequestId + 1) _ _ k0
      (getInst_putInst_same _ _ _) rfl hnone
    refine ⟨h1, ?_⟩
    intro k hkk
    injection hkk with hkk
    subst hkk
    exact h2

theorem C6_refetch_always_invokes_witness :
    (refetchStep 0 (runTrace [Event.mount 0 (some "k"),
        Event.settle 0 (Outcome.resolve (JVal.jstr "v"))])).producerCalls =
      (runTrace [Event.mount 0 (some "k"),
        Event.settle 0 (Outcome.resolve (JVal.jstr "v"))]).producerCalls + 1 ∧
    alookup (refetchStep 0 (runTrace [Event.mount 0 (some "k"),
        Event.settle 0 (Outcome.resolve (JVal.jstr "v"))])).cache "k" =
      some (pendingEntry (runTrace [Event.mount 0 (some "k"),
        Event.settle 0 (Outcome.resolve (JVal.jstr "v"))]).nextPromise) := by
  obtain ⟨h1, h2⟩ := C6_refetch_always_invokes
    (runTrace [Event.mount 0 (some "k"), Event.settle 0 (Outcome.resolve (JVal.jstr "v"))]) 0
    ⟨some "k", some (JVal.jstr "v"), false, none, 1, resolvedEntry 0 (JVal.jstr "v"), false, 1, true⟩
    (by decide) rfl
  exact ⟨h1, h2 "k" rfl⟩

/-- C7: if an instance is torn down (its effect cleanup ran: `cleanupCalled`
set and `latestRequestId` incremented, lines 246-256) before an in-flight
fetch settles, no later settlement of any promise mutates that instance's
state at all: its record (data, isLoading, error included) is exactly
unchanged by the settle step, because every suspended continuation of the
instance carries an epoch strictly below the bumped counter and the
subscription callback is guarded by `cleanupCalled`.  The settlement
handler is total — the catch consumes a rejection — so the sequence raises
no error. -/
theorem C7_teardown_blocks_late_settlement : ∀ s, Reachable s →
    ∀ i inst, getInst s i = some inst → inst.cleanupCalled = true →
    ∀ p out, getInst (settleStep p out s) i = some inst := by
  intro s hs i inst hg hc p out
  obtain ⟨hw, he, hb, ho, hgi⟩ := inv_reachable s hs
  unfold settleStep
  dsimp only
  refine foldl_preserve_mem (fun acc c => runCont c out acc)
    (fun u => getInst u i = some inst) (s.conts.filter (fun c => c.promise = p))
    (fun u c hcmem hu => ?_) _ hg
  dsimp only
  refine runCont_torn c out u i inst hu hc (fun hci => ?_)
  have hcs : c ∈ s.conts := List.mem_of_mem_filter hcmem
  have hb2 := hb c hcs inst (by rw [hci]; exact hg)
  exact Nat.ne_of_lt (hb2.2 hc)

theorem C7_teardown_blocks_late_settlement_witness :
    getInst (settleStep 0 (Outcome.resolve (JVal.jstr "late"))
        (runTrace [Event.mount 0 none, Event.unmount 0])) 0 =
      some ⟨none, none, true, none, 2, idleEntry, true, 1, false⟩ :=
  C7_teardown_blocks_late_settlement _ ⟨[Event.mount 0 none, Event.unmount 0], rfl⟩
    0 ⟨none, none, true, none, 2, idleEntry, true, 1, false⟩ (by decide) rfl 0
    (Outcome.resolve (JVal.jstr "late"))

/-- C8: when a producer invocation rejects with value `e` and is current
under the epoch gate, the rejection is contained by the `catch`
(lines 147-164) — the settlement handler returns a state, nothing is
re-thrown — and the exposed error field is set to
`e instanceof Error ? e : new Error(String(e))`: always an Error object
carrying a message string, wrapping non-Error values. -/
theorem C8_rejection_contained_and_normalized : ∀ (s : Sys) (c : Await) (e : JVal)
    (inst : Instance), c.kind = ContKind.fetchCont → getInst s c.inst = some inst →
    c.reqId = inst.latestRequestId →
    ∃ m, toError e = JVal.jerror m ∧
      ∃ inst2, getInst (runCont c (Outcome.reject e) s) c.inst = some inst2 ∧
        inst2.error = some (JVal.jerror m) := by
  intro s c e inst hkind hg hq
  obtain ⟨m, hm⟩ := toError_jerror e
  refine ⟨m, hm, ?_⟩
  unfold runCont
  rw [hkind]
  unfold fetchResume fetchSettleBody
  rw [hg]
  dsimp only
  rw [if_pos hq, hm]
  cases hck : c.key with
  | none =>
    dsimp only
    unfold fetchFinally
    rw [getInst_putInst_same]
    dsimp only
    split
    next hq2 => exact ⟨_, getInst_putInst_same _ _ _, rfl⟩
    next hq2 => exact absurd hq hq2
  | some k =>
    dsimp only
    obtain ⟨inst5, hg5, herr5, hlat5⟩ := publish_rejected_error c.inst k (JVal.jerror m)
      (putInst s c.inst ⟨inst.key, none, inst.isLoading, some (JVal.jerror m), inst.latestRequestId, inst.ref, inst.cleanupCalled, inst.lastStartEpoch, true⟩)
      ⟨inst.key, none, inst.isLoading, some (JVal.jerror m), inst.latestRequestId, inst.ref, inst.cleanupCalled, inst.lastStartEpoch, true⟩
      (getInst_putInst_same _ _ _) rfl inst.latestRequestId rfl
    unfold fetchFinally
    rw [hg5]
    dsimp only
    split
    next hq2 => exact ⟨_, getInst_putInst_same _ _ _, herr5⟩
    next hq2 =>
      refine absurd ?_ hq2
      rw [hlat5]
      exact hq

theorem C8_rejection_contained_and_normalized_witness :
    ∃ m, toError (JVal.jstr "boom") = JVal.jerror m ∧
      ∃ inst2, getInst (runCont ⟨0, 0, some "k", 1, ContKind.fetchCont⟩
          (Outcome.reject (JVal.jstr "boom"))
          (runTrace [Event.mount 0 (some "k")])) 0 = some inst2 ∧
        inst2.error = some (JVal.jerror m) :=
  C8_rejection_contained_and_normalized _ ⟨0, 0, some "k", 1, ContKind.fetchCont⟩
    (JVal.jstr "boom")
    ⟨some "k", none, true, none, 1, pendingEntry 0, false, 1, false⟩
    rfl (by decide) rfl

/-- C9: a consumer instance created without a cache key never touches the
shared store: mounting it, refetching it, the settlement of a keyless
continuation, and tearing it down all leave `asyncDataCache` and
`subscribers` exactly unchanged, while mount and refetch invoke the
producer directly (the invocation counter rises by one). -/
theorem C9_keyless_no_store_interaction :
    (∀ (s : Sys) (i : Nat), getInst s i = none →
      (mountStep i none s).cache = s.cache ∧ (mountStep i none s).subs = s.subs ∧
      (mountStep i none s).producerCalls = s.producerCalls + 1) ∧
    (∀ (s : Sys) (i : Nat) (inst : Instance), getInst s i = some inst →
      inst.cleanupCalled = false → inst.key = none →
      (refetchStep i s).cache = s.cache ∧ (refetchStep i s).subs = s.subs ∧
      (refetchStep i s).producerCalls = s.producerCalls + 1) ∧
    (∀ (c : Await) (out : Outcome) (s : Sys), c.key = none →
      (runCont c out s).cache = s.cache ∧ (runCont c out s).subs = s.subs) ∧
    (∀ (s : Sys) (i : Nat) (inst : Instance), getInst s i = some inst →
      inst.key = none →
      (unmountStep i s).cache = s.cache ∧ (unmountStep i s).subs = s.subs) :=
  ⟨fun s i h => mount_keyless s i h,
   fun s i inst hg hcl hk => refetch_keyless s i inst hg hcl hk,
   fun c out s hk => ⟨runCont_cache_keyless c out s hk, runCont_subs_eq c out s⟩,
   fun s i inst hg hk => unmount_keyless s i inst hg hk⟩

theorem C9_keyless_no_store_interaction_witness :
    ((mountStep 0 none initSys).cache = initSys.cache ∧
     (mountStep 0 none initSys).subs = initSys.subs ∧
     (mountStep 0 none initSys).producerCalls = initSys.producerCalls + 1) ∧
    ((refetchStep 0 (runTrace [Event.mount 0 none])).cache =
        (runTrace [Event.mount 0 none]).cache ∧
     (refetchStep 0 (runTrace [Event.mount 0 none])).subs =
        (runTrace [Event.mount 0 none]).subs ∧
     (refetchStep 0 (runTrace [Event.mount 0 none])).producerCalls =
        (runTrace [Event.mount 0 none]).producerCalls + 1) ∧
    ((runCont ⟨0, 0, none, 1, ContKind.fetchCont⟩ (Outcome.resolve (JVal.jstr "v"))
        (runTrace [Event.mount 0 none])).cache = (runTrace [Event.mount 0 none]).cache) ∧
    ((unmountStep 0 (runTrace [Event.mount 0 none])).cache =
        (runTrace [Event.mount 0 none]).cache ∧
     (unmountStep 0 (runTrace [Event.mount 0 none])).subs =
        (runTrace [Event.mount 0 none]).subs) :=
  ⟨C9_keyless_no_store_interaction.1 initSys 0 rfl,
   C9_keyless_no_store_interaction.2.1 _ 0
     ⟨none, none, true, none, 1, idleEntry, false, 1, false⟩ (by decide) rfl rfl,
   (C9_keyless_no_store_interaction.2.2.1 ⟨0, 0, none, 1, ContKind.fetchCont⟩
     (Outcome.resolve (JVal.jstr "v")) (runTrace [Event.mount 0 none]) rfl).1,
   C9_keyless_no_store_interaction.2.2.2 _ 0
     ⟨none, none, true, none, 1, idleEntry, false, 1, false⟩ (by decide) rfl⟩

/-- C10: a freshly created instance exposes exactly `data = null`,
`isLoading = true`, `error = null` (the `useState` initial values on
lines 76-78), and on every reachable state an instance to which no
settlement has been applied and into which no cached value has been
adopted (ghost flag unset) still exposes exactly that triple. -/
theorem C10_initial_exposed_state :
    (∀ key, (initialInstance key).data = none ∧
      (initialInstance key).isLoading = true ∧ (initialInstance key).error = none) ∧
    (∀ s, Reachable s → ∀ i inst, getInst s i = some inst → inst.ghostWrote = false →
      inst.data = none ∧ inst.isLoading = true ∧ inst.error = none) :=
  ⟨fun _ => ⟨rfl, rfl, rfl⟩, fun s hs => (inv_reachable s hs).2.2.2.2⟩

theorem C10_initial_exposed_state_witness :
    (⟨none, none, true, none, 1, idleEntry, false, 1, false⟩ : Instance).data = none ∧
    (⟨none, none, true, none, 1, idleEntry, false, 1, false⟩ : Instance).isLoading = true ∧
    (⟨none, none, true, none, 1, idleEntry, false, 1, false⟩ : Instance).error = none :=
  C10_initial_exposed_state.2 (runTrace [Event.mount 0 none]) ⟨[Event.mount 0 none], rfl⟩
    0 ⟨none, none, true, none, 1, idleEntry, false, 1, false⟩ (by decide) rfl
